import Mathlib

/-!
# AQI computation and poll cycle of `main/main.c` (SEN55 air-quality node)

Shallow embedding of the breakpoint tables, `calculate_aqi` and the body of the
`while (1)` loop of `app_main`.

Modelling conventions
* There are two layers.  In the first, C `float` values are exact rationals (`ℚ`): the
  tables hold the decimal values written in the source and the interpolation is exact
  arithmetic.  It carries the statements that do not depend on rounding: order of the
  buckets, monotonicity, the range of the result, which raw counts match a bucket, control
  flow.  The second layer (`Binary32`) rounds every `float` operation to binary32 and
  compares with the constants as stored; it carries the statements about the value computed,
  about concentrations that match no bucket, and about the stored quotients of the unit
  conversion.
* C `int` is `Int`; `uint16_t` / `int16_t` raw counts are `Nat` / `Int`.
* A C array together with its length argument is a `List`.
* Calls into the sensor driver, the logger, the MQTT client and the scheduler are recorded
  as a list of `action`s; what the driver returns is an input of the cycle.
* The endless `while (1)` loop is observed over any finite number of cycles.
-/

namespace AqiSen55

/-! ## Data model -/

/-- The struct `aqi_breakpoint_t` (main.c, lines 26-31). -/
structure aqi_breakpoint_t where
  conc_lo : ℚ
  conc_hi : ℚ
  aqi_lo : Int
  aqi_hi : Int
deriving DecidableEq, Repr

/-- The macro `SENSOR_POLL_DELAY_MS` (main.c, line 17). -/
def SENSOR_POLL_DELAY_MS : Nat := 10000

/-- The table `pm25_breakpoints` (main.c, lines 34-42). -/
def pm25_breakpoints : List aqi_breakpoint_t := [
  ⟨   0.0,   12.0,   0,  50 ⟩,
  ⟨  12.1,   35.4,  51, 100 ⟩,
  ⟨  35.5,   55.4, 101, 150 ⟩,
  ⟨  55.5,  150.4, 151, 200 ⟩,
  ⟨ 150.5,  250.4, 201, 300 ⟩,
  ⟨ 250.5,  350.4, 301, 400 ⟩,
  ⟨ 350.5,  500.4, 401, 500 ⟩ ]

/-- The table `pm10_breakpoints` (main.c, lines 45-53). -/
def pm10_breakpoints : List aqi_breakpoint_t := [
  ⟨    0.0,   54.0,   0,  50 ⟩,
  ⟨   55.0,  154.0,  51, 100 ⟩,
  ⟨  155.0,  254.0, 101, 150 ⟩,
  ⟨  255.0,  354.0, 151, 200 ⟩,
  ⟨  355.0,  424.0, 201, 300 ⟩,
  ⟨  425.0,  504.0, 301, 400 ⟩,
  ⟨  505.0,  604.0, 401, 500 ⟩ ]

/-- The table `nox_breakpoints` (main.c, lines 56-64). -/
def nox_breakpoints : List aqi_breakpoint_t := [
  ⟨    0.0,   53.0,   0,  50 ⟩,
  ⟨   54.0,  100.0,  51, 100 ⟩,
  ⟨  101.0,  360.0, 101, 150 ⟩,
  ⟨  361.0,  649.0, 151, 200 ⟩,
  ⟨  650.0, 1249.0, 201, 300 ⟩,
  ⟨ 1250.0, 1649.0, 301, 400 ⟩,
  ⟨ 1650.0, 2049.0, 401, 500 ⟩ ]

/-- The three tables the loop passes to `calculate_aqi` (main.c, lines 161-163). -/
def all_tables : List (List aqi_breakpoint_t) :=
  [pm25_breakpoints, pm10_breakpoints, nox_breakpoints]

/-! ## `calculate_aqi` -/

/-- The C conversion `(int)x` of a float: truncation toward zero. -/
def float_to_int (x : ℚ) : Int :=
  if 0 ≤ x then ⌊x⌋ else ⌈x⌉

/-- The test of line 69: `conc >= bps[i].conc_lo && conc <= bps[i].conc_hi`. -/
def in_bucket (conc : ℚ) (b : aqi_breakpoint_t) : Prop :=
  conc ≥ b.conc_lo ∧ conc ≤ b.conc_hi

instance (conc : ℚ) (b : aqi_breakpoint_t) : Decidable (in_bucket conc b) := by
  unfold in_bucket; infer_instance

/-- The function `calculate_aqi` (main.c, lines 67-79).  The loop `for i in 0 .. len-1` over
`bps[i]` is the recursion over the list; the head of the list is the bucket under test. -/
def calculate_aqi (conc : ℚ) : List aqi_breakpoint_t → Int
  | [] => -1
  | b :: bps =>
    if conc ≥ b.conc_lo ∧ conc ≤ b.conc_hi then
      let c_low : ℚ := b.conc_lo
      let c_high : ℚ := b.conc_hi
      let i_low : Int := b.aqi_lo
      let i_high : Int := b.aqi_hi
      let aqi : ℚ := (((i_high - i_low : Int) : ℚ) / (c_high - c_low)) * (conc - c_low) + (i_low : ℚ)
      float_to_int (aqi + 0.5)
    else
      calculate_aqi conc bps

/-- The value `calculate_aqi` returns from bucket `b` once line 69 has selected it
(lines 70-75). -/
def interpolate (conc : ℚ) (b : aqi_breakpoint_t) : Int :=
  float_to_int
    ((((b.aqi_hi - b.aqi_lo : Int) : ℚ) / (b.conc_hi - b.conc_lo)) * (conc - b.conc_lo)
      + (b.aqi_lo : ℚ) + 0.5)

/-- The upper end of a table's span: `conc_hi` of its last bucket (0 for an empty table). -/
def conc_max (bps : List aqi_breakpoint_t) : ℚ :=
  match bps.getLast? with
  | some b => b.conc_hi
  | none => 0

/-! ## Shape of a table

Properties of a table that the proofs about the three tables go through: they are checked
on the tables, not assumed. -/

/-- A bucket of positive width whose index range is non-negative and not reversed. -/
def bucket_ok (b : aqi_breakpoint_t) : Prop :=
  b.conc_lo < b.conc_hi ∧ 0 ≤ b.aqi_lo ∧ b.aqi_lo ≤ b.aqi_hi

/-- Bucket `a` lies wholly below bucket `b`, in concentration and in index. -/
def bucket_below (a b : aqi_breakpoint_t) : Prop :=
  a.conc_hi < b.conc_lo ∧ a.aqi_hi ≤ b.aqi_lo

/-- Every bucket is `bucket_ok` and every earlier bucket lies below every later one. -/
def table_ok (bps : List aqi_breakpoint_t) : Prop :=
  (∀ b ∈ bps, bucket_ok b) ∧ bps.Pairwise bucket_below

/-! ## The loop body of `app_main` -/

/-- The eight outputs of `sen5x_read_measured_values` (main.c, lines 149-151):
four `uint16_t` and four `int16_t`. -/
structure raw_values where
  pm1p0 : Nat
  pm2p5 : Nat
  pm4p0 : Nat
  pm10p0 : Nat
  hum : Int
  temp_raw : Int
  voc_idx : Int
  nox_idx : Int
deriving DecidableEq, Repr

/-- The locals of one cycle after line 166: converted values, sub-indices, overall index. -/
structure reading where
  pm1 : ℚ
  pm2_5 : ℚ
  pm4 : ℚ
  pm10 : ℚ
  temp : ℚ
  rh : ℚ
  voc : ℚ
  nox : ℚ
  aqi25 : Int
  aqi10 : Int
  aqi_nox : Int
  aqi : Int
deriving DecidableEq, Repr

/-- Lines 164-166: `aqi = aqi25; if (aqi10 > aqi) aqi = aqi10; if (aqi_nox > aqi) aqi = aqi_nox;`. -/
def overall_aqi (aqi25 aqi10 aqi_nox : Int) : Int :=
  let aqi := aqi25
  let aqi := if aqi10 > aqi then aqi10 else aqi
  let aqi := if aqi_nox > aqi then aqi_nox else aqi
  aqi

/-- Lines 152-166: unit conversion, the three sub-indices and the overall index. -/
def compute_reading (v : raw_values) : reading :=
  let pm1 : ℚ := (v.pm1p0 : ℚ) / 10.0
  let pm2_5 : ℚ := (v.pm2p5 : ℚ) / 10.0
  let pm4 : ℚ := (v.pm4p0 : ℚ) / 10.0
  let pm10 : ℚ := (v.pm10p0 : ℚ) / 10.0
  let temp : ℚ := (v.temp_raw : ℚ) / 200.0
  let rh : ℚ := (v.hum : ℚ) / 100.0
  let voc : ℚ := (v.voc_idx : ℚ) / 10.0
  let nox : ℚ := (v.nox_idx : ℚ) / 10.0
  let aqi25 := calculate_aqi pm2_5 pm25_breakpoints
  let aqi10 := calculate_aqi pm10 pm10_breakpoints
  let aqi_nox := calculate_aqi nox nox_breakpoints
  let aqi := overall_aqi aqi25 aqi10 aqi_nox
  ⟨pm1, pm2_5, pm4, pm10, temp, rh, voc, nox, aqi25, aqi10, aqi_nox, aqi⟩

/-! ### Text produced by `snprintf` and the logger

The C library conversions are applied to the exact value of the argument. -/

/-- Nearest natural number to `x ≥ 0`, ties to even. -/
def round_half_even (x : ℚ) : Nat :=
  let f : Nat := ⌊x⌋.toNat
  let r : ℚ := x - f
  if r < 1 / 2 then f
  else if 1 / 2 < r then f + 1
  else if f % 2 = 0 then f else f + 1

/-- Left-pad `s` with `'0'` to width `w`. -/
def pad_zeros (w : Nat) (s : String) : String :=
  String.mk (List.replicate (w - s.length) '0') ++ s

/-- The conversion `%.<prec>f`. -/
def fmt_f (prec : Nat) (x : ℚ) : String :=
  let n : Nat := round_half_even (|x| * (10 : ℚ) ^ prec)
  (if x < 0 then "-" else "") ++ toString (n / 10 ^ prec) ++
    (if prec = 0 then "" else "." ++ pad_zeros prec (toString (n % 10 ^ prec)))

/-- The conversion `%d`. -/
def fmt_d (i : Int) : String := toString i

/-- The text `snprintf` writes into `payload` (main.c, lines 174-177).  The 256-byte bound of
the buffer is not modelled: with 16-bit raw counts the text stays below 130 bytes. -/
def snprintf_payload (r : reading) : String :=
  "\x7b\"pm1\":" ++ fmt_f 1 r.pm1 ++ ",\"pm2_5\":" ++ fmt_f 1 r.pm2_5 ++
  ",\"pm4\":" ++ fmt_f 1 r.pm4 ++ ",\"pm10\":" ++ fmt_f 1 r.pm10 ++
  ",\"temp\":" ++ fmt_f 2 r.temp ++ ",\"rh\":" ++ fmt_f 2 r.rh ++
  ",\"voc\":" ++ fmt_f 1 r.voc ++ ",\"nox\":" ++ fmt_f 1 r.nox ++
  ",\"aqi\":" ++ fmt_d r.aqi ++ "\x7d"

/-- The message of the `ESP_LOGI` call of lines 168-170. -/
def log_reading (r : reading) : String :=
  "PM1:" ++ fmt_f 1 r.pm1 ++ " PM2.5:" ++ fmt_f 1 r.pm2_5 ++ " PM4:" ++ fmt_f 1 r.pm4 ++
  " PM10:" ++ fmt_f 1 r.pm10 ++ " Temp:" ++ fmt_f 2 r.temp ++ "°C RH:" ++ fmt_f 2 r.rh ++
  "% VOC:" ++ fmt_f 1 r.voc ++ " NOx:" ++ fmt_f 1 r.nox ++ " AQI25:" ++ fmt_d r.aqi25 ++
  " AQI10:" ++ fmt_d r.aqi10 ++ " AQINOx:" ++ fmt_d r.aqi_nox ++ " -> AQI:" ++ fmt_d r.aqi

/-- Severity of a log line (`ESP_LOGE`, `ESP_LOGW`, `ESP_LOGI`). -/
inductive log_level where
  | error
  | warn
  | info
deriving DecidableEq, Repr

/-- A call `app_main` makes to the outside world; a run is a list of them in program order. -/
inductive action where
  /-- The call `sen5x_read_data_ready(&ready)`. -/
  | read_data_ready
  /-- The call `sen5x_read_measured_values(...)`. -/
  | read_measured_values
  /-- One `ESP_LOGx(TAG, ...)` line. -/
  | log (level : log_level) (msg : String)
  /-- The call `esp_mqtt_client_publish(mqtt_client, topic, payload, 0, qos, retain)`. -/
  | publish (topic : String) (payload : String) (qos : Int) (retain : Int)
  /-- The call `vTaskDelay(pdMS_TO_TICKS(ms))`. -/
  | delay (ms : Nat)
  /-- The call `wifi_init()` (line 133). -/
  | wifi_init
  /-- The call `mqtt_init()` (line 134). -/
  | mqtt_init
  /-- The call `sensirion_i2c_hal_init()` (line 135). -/
  | sensirion_i2c_hal_init
  /-- The call `sen5x_start_measurement()` (line 138). -/
  | start_measurement
deriving DecidableEq, Repr

/-- What the environment hands to one cycle. -/
structure cycle_input where
  /-- Result of `sen5x_read_data_ready`: `none` for a non-zero return, else the flag. -/
  data_ready : Option Bool
  /-- Result of `sen5x_read_measured_values`: `none` for a non-zero return. -/
  values : Option raw_values
  /-- Whether the global `mqtt_client` is non-NULL. -/
  mqtt_client : Bool
deriving DecidableEq, Repr

/-- Lines 172-179: publish when `mqtt_client` is set. -/
def publish_step (mqtt_client : Bool) (r : reading) : List action :=
  if mqtt_client then
    [action.publish "your topic" (snprintf_payload r) 1 0]
  else
    []

/-- One pass through the body of `while (1)` (main.c, lines 145-186). -/
def poll_cycle (inp : cycle_input) : List action :=
  [action.read_data_ready] ++
  (match inp.data_ready with
   | none => [action.log log_level.error "Data-ready check failed"]
   | some true =>
     [action.read_measured_values] ++
     (match inp.values with
      | some v =>
        let r := compute_reading v
        [action.log log_level.info (log_reading r)] ++ publish_step inp.mqtt_client r
      | none => [action.log log_level.error "Failed to read sensor values"])
   | some false => [action.log log_level.warn "Data not ready"]) ++
  [action.delay SENSOR_POLL_DELAY_MS]

/-! ## `app_main` as a whole -/

/-- The `while (1)` loop (lines 144-187) over the cycles whose inputs are given: the body has
no `break` and no `return`, so each cycle is followed by the next.  The list of inputs fixes
how many cycles of the endless loop are observed. -/
def run_loop : List cycle_input → List action
  | [] => []
  | inp :: rest => poll_cycle inp ++ run_loop rest

/-- The function `app_main` (lines 132-188): what it does, in program order, when
`sen5x_start_measurement` returns `start_result` and the cycles receive `inputs`.  The three
initialisation calls are taken to return. -/
def app_main (start_result : Int) (inputs : List cycle_input) : List action :=
  [action.wifi_init, action.mqtt_init, action.sensirion_i2c_hal_init,
   action.log log_level.info "Starting SEN5x measurement...",
   action.start_measurement] ++
  (if start_result ≠ 0 then
     [action.log log_level.error "Failed to start measurement"]
   else
     [action.delay 1000] ++ run_loop inputs)

/-- Whether an action is a call of `esp_mqtt_client_publish`. -/
def is_publish : action → Bool
  | action.publish _ _ _ _ => true
  | _ => false

/-- Whether an action is a call of `vTaskDelay`. -/
def is_delay : action → Bool
  | action.delay _ => true
  | _ => false

/-- The connectivity sink at publish time: whether the handle `mqtt_client` is non-NULL, and
whether the broker connection is up (after `MQTT_EVENT_CONNECTED`, before
`MQTT_EVENT_DISCONNECTED`, lines 85-86). -/
structure sink_state where
  client_set : Bool
  connected : Bool
deriving DecidableEq, Repr

/-- Lines 172-179 against a sink: the guard `if (mqtt_client)` reads the handle and nothing
else. -/
def publish_to_sink (s : sink_state) (r : reading) : List action :=
  publish_step s.client_set r

/-- The inverse of the unit conversion, as the round-trip property words it: multiply by the
channel's divisor and round to the nearest integer.  It is not part of main.c. -/
def raw_of_physical (divisor : ℚ) (x : ℚ) : Int :=
  round (x * divisor)

/-! ## The binary32 layer

`calculate_aqi` and the unit conversion once more, with every `float` operation rounded to
binary32 (round to nearest, ties to even) and the tables holding the values the constants
`12.1f`, `35.4f`, ... are stored as.  A result is `none` where C leaves it undefined: a
value that is not finite reaches the cast `(int)`, or an `int` operation overflows.
Multiplication and addition are rounded separately (no fused multiply-add). -/

namespace Binary32

/-- Nearest integer to `y`, ties to the even one. -/
def round_ties_even (y : ℚ) : Int :=
  let f : Int := ⌊y⌋
  let r : ℚ := y - f
  if r < 1 / 2 then f
  else if 1 / 2 < r then f + 1
  else if f % 2 = 0 then f else f + 1

/-- The largest `e` among `lo, ..., lo + n` with `2 ^ e ≤ a`, and `lo` when there is none. -/
def exponent_search (a : ℚ) (lo : Int) : Nat → Int
  | 0 => lo
  | n + 1 =>
    if (2 : ℚ) ^ (lo + (n + 1 : Nat)) ≤ a then lo + (n + 1 : Nat)
    else exponent_search a lo n

/-- The binary exponent of `x`: the `e` with `2 ^ e ≤ |x| < 2 ^ (e + 1)`, kept within
`-126 ... 128`, so that it is `-126` in the subnormal range. -/
def exponent (x : ℚ) : Int :=
  exponent_search |x| (-126) 254

/-- Spacing of the binary32 values around `x`: 24 significant bits. -/
def quantum (x : ℚ) : ℚ :=
  (2 : ℚ) ^ (exponent x - 23)

/-- Rounding of a real value to binary32 (round to nearest, ties to even); a value of
magnitude `2 ^ 128` or more stands for an overflow. -/
def f32_round (x : ℚ) : ℚ :=
  round_ties_even (x / quantum x) * quantum x

/-- The result of a `float` operation whose exact value is `x`: `none` when it rounds to
an infinity. -/
def f32 (x : ℚ) : Option ℚ :=
  if |f32_round x| < 2 ^ 128 then some (f32_round x) else none

/-- The result of a `float` division: not finite when the divisor is zero. -/
def f32_div (x y : ℚ) : Option ℚ :=
  if y = 0 then none else f32 (x / y)

/-- The result of an `int` operation whose exact value is `i`: `none` on overflow. -/
def int32 (i : Int) : Option Int :=
  if -2 ^ 31 ≤ i ∧ i < 2 ^ 31 then some i else none

/-- The constant written `x` with suffix `f` in the source. -/
def lit (x : ℚ) : ℚ := f32_round x

/-- The table `pm25_breakpoints` (main.c, lines 34-42) as stored. -/
def pm25_breakpoints : List aqi_breakpoint_t := [
  ⟨ lit   0.0, lit  12.0,   0,  50 ⟩,
  ⟨ lit  12.1, lit  35.4,  51, 100 ⟩,
  ⟨ lit  35.5, lit  55.4, 101, 150 ⟩,
  ⟨ lit  55.5, lit 150.4, 151, 200 ⟩,
  ⟨ lit 150.5, lit 250.4, 201, 300 ⟩,
  ⟨ lit 250.5, lit 350.4, 301, 400 ⟩,
  ⟨ lit 350.5, lit 500.4, 401, 500 ⟩ ]

/-- The table `pm10_breakpoints` (main.c, lines 45-53) as stored. -/
def pm10_breakpoints : List aqi_breakpoint_t := [
  ⟨ lit   0.0, lit  54.0,   0,  50 ⟩,
  ⟨ lit  55.0, lit 154.0,  51, 100 ⟩,
  ⟨ lit 155.0, lit 254.0, 101, 150 ⟩,
  ⟨ lit 255.0, lit 354.0, 151, 200 ⟩,
  ⟨ lit 355.0, lit 424.0, 201, 300 ⟩,
  ⟨ lit 425.0, lit 504.0, 301, 400 ⟩,
  ⟨ lit 505.0, lit 604.0, 401, 500 ⟩ ]

/-- The table `nox_breakpoints` (main.c, lines 56-64) as stored. -/
def nox_breakpoints : List aqi_breakpoint_t := [
  ⟨ lit    0.0, lit   53.0,   0,  50 ⟩,
  ⟨ lit   54.0, lit  100.0,  51, 100 ⟩,
  ⟨ lit  101.0, lit  360.0, 101, 150 ⟩,
  ⟨ lit  361.0, lit  649.0, 151, 200 ⟩,
  ⟨ lit  650.0, lit 1249.0, 201, 300 ⟩,
  ⟨ lit 1250.0, lit 1649.0, 301, 400 ⟩,
  ⟨ lit 1650.0, lit 2049.0, 401, 500 ⟩ ]

/-- The three tables the loop passes to `calculate_aqi` (main.c, lines 161-163), as
stored. -/
def all_tables : List (List aqi_breakpoint_t) :=
  [pm25_breakpoints, pm10_breakpoints, nox_breakpoints]

/-- Lines 70-75 of `calculate_aqi` on the bucket `b` that line 69 selected:
`aqi = ((i_high - i_low) / (c_high - c_low)) * (conc - c_low) + i_low` and
`(int)(aqi + 0.5f)`, one rounding per operation. -/
def interpolate (conc : ℚ) (b : aqi_breakpoint_t) : Option Int := do
  let c_low : ℚ := b.conc_lo
  let c_high : ℚ := b.conc_hi
  let i_low : Int := b.aqi_lo
  let i_high : Int := b.aqi_hi
  let range ← int32 (i_high - i_low)
  let width ← f32 (c_high - c_low)
  let slope ← f32_div (f32_round range) width
  let offset ← f32 (conc - c_low)
  let scaled ← f32 (slope * offset)
  let aqi ← f32 (scaled + f32_round i_low)
  let rounded ← f32 (aqi + lit 0.5)
  int32 (float_to_int rounded)

/-- The function `calculate_aqi` (main.c, lines 67-79) in binary32.  The comparisons of
line 69 are exact; the bucket bounds are the stored constants. -/
def calculate_aqi (conc : ℚ) : List aqi_breakpoint_t → Option Int
  | [] => some (-1)
  | b :: bps =>
    if conc ≥ b.conc_lo ∧ conc ≤ b.conc_hi then
      interpolate conc b
    else
      calculate_aqi conc bps

/-- The eight converted values of lines 152-159. -/
structure physical_values where
  pm1 : ℚ
  pm2_5 : ℚ
  pm4 : ℚ
  pm10 : ℚ
  temp : ℚ
  rh : ℚ
  voc : ℚ
  nox : ℚ
deriving DecidableEq, Repr

/-- Lines 152-159: each raw count, converted to `float`, divided by its constant divisor. -/
def convert_units (v : raw_values) : physical_values :=
  { pm1 := f32_round (f32_round (v.pm1p0 : ℚ) / lit 10.0)
    pm2_5 := f32_round (f32_round (v.pm2p5 : ℚ) / lit 10.0)
    pm4 := f32_round (f32_round (v.pm4p0 : ℚ) / lit 10.0)
    pm10 := f32_round (f32_round (v.pm10p0 : ℚ) / lit 10.0)
    temp := f32_round (f32_round (v.temp_raw : ℚ) / lit 200.0)
    rh := f32_round (f32_round (v.hum : ℚ) / lit 100.0)
    voc := f32_round (f32_round (v.voc_idx : ℚ) / lit 10.0)
    nox := f32_round (f32_round (v.nox_idx : ℚ) / lit 10.0) }

/-- The inverse of the unit conversion with the multiplication carried out in binary32:
`round(x * divisor)`.  Like `raw_of_physical` of the exact layer it is not part of main.c. -/
def raw_of_physical (divisor : ℚ) (x : ℚ) : Int :=
  round (f32_round (x * divisor))

end Binary32

/-- The ranges of the raw counts: `uint16_t` for the four particulate counts, `int16_t` for
the other four (main.c, lines 149-150). -/
def raw_values_in_range (v : raw_values) : Prop :=
  v.pm1p0 ≤ 65535 ∧ v.pm2p5 ≤ 65535 ∧ v.pm4p0 ≤ 65535 ∧ v.pm10p0 ≤ 65535 ∧
  (-32768 ≤ v.hum ∧ v.hum ≤ 32767) ∧ (-32768 ≤ v.temp_raw ∧ v.temp_raw ≤ 32767) ∧
  (-32768 ≤ v.voc_idx ∧ v.voc_idx ≤ 32767) ∧ (-32768 ≤ v.nox_idx ∧ v.nox_idx ≤ 32767)

/-! ## General facts about `calculate_aqi` -/

theorem float_to_int_of_nonneg {x : ℚ} (h : 0 ≤ x) : float_to_int x = ⌊x⌋ := by
  simp [float_to_int, h]

theorem calculate_aqi_cons_hit {conc : ℚ} {b : aqi_breakpoint_t} (bps : List aqi_breakpoint_t)
    (h : in_bucket conc b) : calculate_aqi conc (b :: bps) = interpolate conc b := by
  unfold in_bucket at h
  simp only [calculate_aqi, interpolate, if_pos h]

theorem calculate_aqi_cons_miss {conc : ℚ} {b : aqi_breakpoint_t} (bps : List aqi_breakpoint_t)
    (h : ¬ in_bucket conc b) : calculate_aqi conc (b :: bps) = calculate_aqi conc bps := by
  unfold in_bucket at h
  simp only [calculate_aqi, if_neg h]

/-- No bucket matches: the scan falls through to `return -1`. -/
theorem calculate_aqi_no_match (conc : ℚ) (bps : List aqi_breakpoint_t)
    (h : ∀ b ∈ bps, ¬ in_bucket conc b) : calculate_aqi conc bps = -1 := by
  induction bps with
  | nil => rfl
  | cons b bps ih =>
    rw [calculate_aqi_cons_miss bps (h b (List.mem_cons_self b bps))]
    exact ih (fun x hx => h x (List.mem_cons_of_mem b hx))

/-- Some bucket matches: the scan returns from the first one. -/
theorem calculate_aqi_first_match (conc : ℚ) (bps : List aqi_breakpoint_t)
    (h : ∃ b ∈ bps, in_bucket conc b) :
    ∃ pre b post, bps = pre ++ b :: post ∧ (∀ x ∈ pre, ¬ in_bucket conc x) ∧
      in_bucket conc b ∧ calculate_aqi conc bps = interpolate conc b := by
  induction bps with
  | nil => obtain ⟨b, hb, _⟩ := h; cases hb
  | cons a bps ih =>
    by_cases ha : in_bucket conc a
    · exact ⟨[], a, bps, rfl, by simp, ha, calculate_aqi_cons_hit bps ha⟩
    · have h' : ∃ b ∈ bps, in_bucket conc b := by
        obtain ⟨b, hb, hin⟩ := h
        rcases List.mem_cons.mp hb with rfl | hb'
        · exact absurd hin ha
        · exact ⟨b, hb', hin⟩
      obtain ⟨pre, b, post, hsplit, hpre, hin, hval⟩ := ih h'
      refine ⟨a :: pre, b, post, by simp [hsplit], ?_, hin, ?_⟩
      · intro x hx
        rcases List.mem_cons.mp hx with rfl | hx'
        · exact ha
        · exact hpre x hx'
      · rw [calculate_aqi_cons_miss bps ha]; exact hval

/-- A matched concentration is interpolated in some bucket of the table that holds it. -/
theorem calculate_aqi_of_match (conc : ℚ) (bps : List aqi_breakpoint_t)
    (h : ∃ b ∈ bps, in_bucket conc b) :
    ∃ b ∈ bps, in_bucket conc b ∧ calculate_aqi conc bps = interpolate conc b := by
  obtain ⟨pre, b, post, hsplit, _, hin, hval⟩ := calculate_aqi_first_match conc bps h
  exact ⟨b, by simp [hsplit], hin, hval⟩

/-! ## Interpolation inside one bucket -/

/-- The exact interpolated value before rounding. -/
theorem interpolate_raw_bounds {c : ℚ} {b : aqi_breakpoint_t} (hb : bucket_ok b)
    (hc : in_bucket c b) :
    (b.aqi_lo : ℚ) ≤ (((b.aqi_hi - b.aqi_lo : Int) : ℚ) / (b.conc_hi - b.conc_lo))
        * (c - b.conc_lo) + (b.aqi_lo : ℚ) ∧
    (((b.aqi_hi - b.aqi_lo : Int) : ℚ) / (b.conc_hi - b.conc_lo))
        * (c - b.conc_lo) + (b.aqi_lo : ℚ) ≤ (b.aqi_hi : ℚ) := by
  obtain ⟨hw, _, hi⟩ := hb
  obtain ⟨h1, h2⟩ := hc
  have hw' : 0 < b.conc_hi - b.conc_lo := by linarith
  have hd : (0 : ℚ) ≤ ((b.aqi_hi - b.aqi_lo : Int) : ℚ) := by exact_mod_cast sub_nonneg.mpr hi
  have hs : 0 ≤ ((b.aqi_hi - b.aqi_lo : Int) : ℚ) / (b.conc_hi - b.conc_lo) :=
    div_nonneg hd hw'.le
  constructor
  · have := mul_nonneg hs (show (0 : ℚ) ≤ c - b.conc_lo by linarith)
    linarith
  · have hle : ((b.aqi_hi - b.aqi_lo : Int) : ℚ) / (b.conc_hi - b.conc_lo) * (c - b.conc_lo)
        ≤ ((b.aqi_hi - b.aqi_lo : Int) : ℚ) / (b.conc_hi - b.conc_lo)
            * (b.conc_hi - b.conc_lo) :=
      mul_le_mul_of_nonneg_left (by linarith) hs
    rw [div_mul_cancel₀ _ hw'.ne'] at hle
    push_cast at hle ⊢
    linarith

theorem interpolate_bounds {c : ℚ} {b : aqi_breakpoint_t} (hb : bucket_ok b)
    (hc : in_bucket c b) : b.aqi_lo ≤ interpolate c b ∧ interpolate c b ≤ b.aqi_hi := by
  obtain ⟨hlo, hhi⟩ := interpolate_raw_bounds hb hc
  have h0 : (0 : ℚ) ≤ (b.aqi_lo : ℚ) := by exact_mod_cast hb.2.1
  unfold interpolate
  rw [float_to_int_of_nonneg (by norm_num at hlo ⊢; linarith)]
  constructor
  · apply Int.le_floor.mpr
    norm_num at hlo ⊢; linarith
  · have : ⌊(((b.aqi_hi - b.aqi_lo : Int) : ℚ) / (b.conc_hi - b.conc_lo)) * (c - b.conc_lo)
        + (b.aqi_lo : ℚ) + 0.5⌋ < b.aqi_hi + 1 := by
      apply Int.floor_lt.mpr
      push_cast
      norm_num at hhi ⊢; linarith
    omega

theorem pm25_table_ok : table_ok pm25_breakpoints := by
  constructor
  · intro b hb
    simp only [pm25_breakpoints, List.mem_cons, List.mem_singleton, List.not_mem_nil,
      or_false] at hb
    rcases hb with rfl | rfl | rfl | rfl | rfl | rfl | rfl <;>
      (unfold bucket_ok; norm_num)
  · simp only [pm25_breakpoints, List.pairwise_cons, List.mem_cons, List.mem_singleton,
      List.not_mem_nil, forall_eq_or_imp, forall_eq, bucket_below, List.Pairwise.nil]
    norm_num

theorem pm10_table_ok : table_ok pm10_breakpoints := by
  constructor
  · intro b hb
    simp only [pm10_breakpoints, List.mem_cons, List.mem_singleton, List.not_mem_nil,
      or_false] at hb
    rcases hb with rfl | rfl | rfl | rfl | rfl | rfl | rfl <;>
      (unfold bucket_ok; norm_num)
  · simp only [pm10_breakpoints, List.pairwise_cons, List.mem_cons, List.mem_singleton,
      List.not_mem_nil, forall_eq_or_imp, forall_eq, bucket_below, List.Pairwise.nil]
    norm_num

theorem nox_table_ok : table_ok nox_breakpoints := by
  constructor
  · intro b hb
    simp only [nox_breakpoints, List.mem_cons, List.mem_singleton, List.not_mem_nil,
      or_false] at hb
    rcases hb with rfl | rfl | rfl | rfl | rfl | rfl | rfl <;>
      (unfold bucket_ok; norm_num)
  · simp only [nox_breakpoints, List.pairwise_cons, List.mem_cons, List.mem_singleton,
      List.not_mem_nil, forall_eq_or_imp, forall_eq, bucket_below, List.Pairwise.nil]
    norm_num

theorem all_tables_ok : ∀ t ∈ all_tables, table_ok t := by
  intro t ht
  simp only [all_tables, List.mem_cons, List.mem_singleton, List.not_mem_nil, or_false] at ht
  rcases ht with rfl | rfl | rfl
  · exact pm25_table_ok
  · exact pm10_table_ok
  · exact nox_table_ok

/-- Per-bucket facts read off the three tables: concentrations start at 0, indices stop at
500, and no bucket reaches past the last one. -/
theorem all_tables_bucket_range :
    ∀ t ∈ all_tables, ∀ b ∈ t, 0 ≤ b.conc_lo ∧ b.aqi_hi ≤ 500 ∧ b.conc_hi ≤ conc_max t := by
  intro t ht b hb
  simp only [all_tables, List.mem_cons, List.mem_singleton, List.not_mem_nil, or_false] at ht
  rcases ht with rfl | rfl | rfl
  · simp only [pm25_breakpoints, List.mem_cons, List.mem_singleton, List.not_mem_nil,
      or_false] at hb
    rcases hb with rfl | rfl | rfl | rfl | rfl | rfl | rfl <;>
      norm_num [conc_max, pm25_breakpoints]
  · simp only [pm10_breakpoints, List.mem_cons, List.mem_singleton, List.not_mem_nil,
      or_false] at hb
    rcases hb with rfl | rfl | rfl | rfl | rfl | rfl | rfl <;>
      norm_num [conc_max, pm10_breakpoints]
  · simp only [nox_breakpoints, List.mem_cons, List.mem_singleton, List.not_mem_nil,
      or_false] at hb
    rcases hb with rfl | rfl | rfl | rfl | rfl | rfl | rfl <;>
      norm_num [conc_max, nox_breakpoints]

/-- In a table of the right shape a concentration lies in at most one position. -/
theorem table_ok_no_second_match {t : List aqi_breakpoint_t} (ht : table_ok t) {c : ℚ}
    {pre post : List aqi_breakpoint_t} {b : aqi_breakpoint_t} (hsplit : t = pre ++ b :: post)
    (hin : in_bucket c b) : ∀ x ∈ pre ++ post, ¬ in_bucket c x := by
  obtain ⟨hall, hpw⟩ := ht
  subst hsplit
  rw [List.pairwise_append] at hpw
  obtain ⟨_, hrest, hcross⟩ := hpw
  rw [List.pairwise_cons] at hrest
  intro x hx hxin
  rcases List.mem_append.mp hx with hx | hx
  · have := (hcross x hx b (List.mem_cons_self b post)).1
    have := (hall x (by simp [hx])).1
    unfold in_bucket at hin hxin
    linarith [hin.1, hin.2, hxin.1, hxin.2]
  · have := (hrest.1 x hx).1
    have := (hall x (by simp [hx])).1
    unfold in_bucket at hin hxin
    linarith [hin.1, hin.2, hxin.1, hxin.2]

theorem table_ok_unique_bucket {t : List aqi_breakpoint_t} (ht : table_ok t) {c : ℚ}
    {b1 b2 : aqi_breakpoint_t} (h1 : b1 ∈ t) (h2 : b2 ∈ t) (hin1 : in_bucket c b1)
    (hin2 : in_bucket c b2) : b1 = b2 := by
  obtain ⟨pre, post, hsplit⟩ := List.append_of_mem h1
  by_contra hne
  have h2' : b2 ∈ pre ++ post := by
    rw [hsplit] at h2
    simp only [List.mem_append, List.mem_cons] at h2 ⊢
    rcases h2 with h | h | h
    · exact Or.inl h
    · exact absurd h.symm hne
    · exact Or.inr h
  exact table_ok_no_second_match ht hsplit hin1 b2 h2' hin2

/-- A concentration strictly between two neighbouring buckets matches no bucket. -/
theorem table_ok_gap_no_match {t : List aqi_breakpoint_t} (ht : table_ok t) {c : ℚ}
    {pre post : List aqi_breakpoint_t} {b1 b2 : aqi_breakpoint_t}
    (hsplit : t = pre ++ b1 :: b2 :: post) (hlo : b1.conc_hi < c) (hhi : c < b2.conc_lo) :
    ∀ x ∈ t, ¬ in_bucket c x := by
  obtain ⟨hall, hpw⟩ := ht
  subst hsplit
  rw [List.pairwise_append] at hpw
  obtain ⟨_, hrest, hcross⟩ := hpw
  rw [List.pairwise_cons, List.pairwise_cons] at hrest
  obtain ⟨_, h2post, _⟩ := hrest
  have hb1 := (hall b1 (by simp)).1
  have hb2 := (hall b2 (by simp)).1
  intro x hx hxin
  unfold in_bucket at hxin
  simp only [List.mem_append, List.mem_cons] at hx
  rcases hx with hx | rfl | rfl | hx
  · have := (hcross x hx b1 (List.mem_cons_self _ _)).1
    linarith [hxin.2]
  · linarith [hxin.2]
  · linarith [hxin.1]
  · have := (h2post x hx).1
    linarith [hxin.1]

/-! ## Claims about `calculate_aqi` -/

theorem overall_aqi_max (a b c : Int) : overall_aqi a b c = max a (max b c) := by
  unfold overall_aqi
  simp only [gt_iff_lt]
  split_ifs <;> omega

theorem compute_reading_aqi (v : raw_values) :
    (compute_reading v).aqi =
      overall_aqi (compute_reading v).aqi25 (compute_reading v).aqi10
        (compute_reading v).aqi_nox := rfl

theorem fmt_d_100 : fmt_d 100 = "100" := by decide

/-- The text of the payload ends with the key `aqi` and the `%d` rendering of the overall
index. -/
theorem snprintf_payload_aqi_field (r : reading) :
    ∃ pre, snprintf_payload r = pre ++ ",\"aqi\":" ++ fmt_d r.aqi ++ "\x7d" :=
  ⟨_, rfl⟩

/-- C6. The overall AQI of a cycle is the maximum of the three sub-indices `aqi25`, `aqi10`
and `aqi_nox`, for all integer values of the three; for 45, 100 and 12 it is 100. -/
theorem overall_aqi_is_maximum :
    (∀ aqi25 aqi10 aqi_nox : Int,
      overall_aqi aqi25 aqi10 aqi_nox = max aqi25 (max aqi10 aqi_nox)) ∧
    (∀ v : raw_values, (compute_reading v).aqi =
      max (compute_reading v).aqi25 (max (compute_reading v).aqi10
        (compute_reading v).aqi_nox)) ∧
    overall_aqi 45 100 12 = 100 :=
  ⟨overall_aqi_max, fun v => by rw [compute_reading_aqi, overall_aqi_max], by decide⟩

theorem conc_max_cons_cons (b0 b1 : aqi_breakpoint_t) (t : List aqi_breakpoint_t) :
    conc_max (b0 :: b1 :: t) = conc_max (b1 :: t) := by
  simp [conc_max, List.getLast?_cons_cons]

/-- Between the first `conc_lo` and the last `conc_hi` a concentration lies in a bucket or
strictly between two neighbouring buckets. -/
theorem span_bucket_or_gap (t : List aqi_breakpoint_t) (b0 : aqi_breakpoint_t) (c : ℚ)
    (hlo : b0.conc_lo ≤ c) (hhi : c ≤ conc_max (b0 :: t)) :
    (∃ b ∈ b0 :: t, in_bucket c b) ∨
    (∃ pre b1 b2 post, b0 :: t = pre ++ b1 :: b2 :: post ∧ b1.conc_hi < c ∧ c < b2.conc_lo) := by
  induction t generalizing b0 with
  | nil =>
    left
    refine ⟨b0, List.mem_singleton.mpr rfl, hlo, ?_⟩
    simpa [conc_max] using hhi
  | cons b1 t ih =>
    rw [conc_max_cons_cons] at hhi
    by_cases h0 : c ≤ b0.conc_hi
    · exact Or.inl ⟨b0, List.mem_cons_self _ _, hlo, h0⟩
    · by_cases h1 : c < b1.conc_lo
      · exact Or.inr ⟨[], b0, b1, t, rfl, lt_of_not_ge h0, h1⟩
      · rcases ih b1 (le_of_not_gt h1) hhi with ⟨b, hb, hin⟩ | ⟨pre, x, y, post, hs, hx, hy⟩
        · exact Or.inl ⟨b, List.mem_cons_of_mem _ hb, hin⟩
        · exact Or.inr ⟨b0 :: pre, x, y, post, by rw [hs]; rfl, hx, hy⟩

/-- Each of the three tables starts with a bucket whose `conc_lo` is 0. -/
theorem all_tables_head : ∀ t ∈ all_tables, ∃ b0 rest, t = b0 :: rest ∧ b0.conc_lo = 0 := by
  intro t ht
  simp only [all_tables, List.mem_cons, List.mem_singleton, List.not_mem_nil, or_false] at ht
  rcases ht with rfl | rfl | rfl
  · exact ⟨_, _, rfl, by norm_num⟩
  · exact ⟨_, _, rfl, by norm_num⟩
  · exact ⟨_, _, rfl, by norm_num⟩

/-- On the three tables the result is the failure marker or lies in `[0, 500]`. -/
theorem calculate_aqi_fail_or_range {t : List aqi_breakpoint_t} (ht : t ∈ all_tables)
    (c : ℚ) : calculate_aqi c t = -1 ∨ (0 ≤ calculate_aqi c t ∧ calculate_aqi c t ≤ 500) := by
  by_cases h : ∃ b ∈ t, in_bucket c b
  · right
    obtain ⟨b, hb, hbin, hval⟩ := calculate_aqi_of_match c t h
    have hbok := (all_tables_ok t ht).1 b hb
    have e1 := interpolate_bounds hbok hbin
    have e2 := (all_tables_bucket_range t ht b hb).2.1
    have e3 := hbok.2.1
    rw [hval]
    constructor <;> omega
  · left
    push_neg at h
    exact calculate_aqi_no_match c t h

/-- C9. Each of the three tables is strictly ascending by `conc_lo`, and its buckets do not
overlap: every bucket's `conc_hi` is strictly below the `conc_lo` of the next bucket and of
every later one.  Hence a concentration lies in at most one bucket, and a bucket that matches
is the only position of the table that matches. -/
theorem tables_sorted_disjoint (t : List aqi_breakpoint_t) (ht : t ∈ all_tables) :
    t.Pairwise (fun a b => a.conc_lo < b.conc_lo) ∧
    t.Pairwise (fun a b => a.conc_hi < b.conc_lo) ∧
    (∀ (pre post : List aqi_breakpoint_t) (b1 b2 : aqi_breakpoint_t),
      t = pre ++ b1 :: b2 :: post → b1.conc_lo < b2.conc_lo ∧ b1.conc_hi < b2.conc_lo) ∧
    (∀ c : ℚ, ∀ b1 ∈ t, ∀ b2 ∈ t, (b1.conc_lo ≤ c ∧ c ≤ b1.conc_hi) →
      (b2.conc_lo ≤ c ∧ c ≤ b2.conc_hi) → b1 = b2) ∧
    (∀ (c : ℚ) (pre post : List aqi_breakpoint_t) (b : aqi_breakpoint_t),
      t = pre ++ b :: post → (b.conc_lo ≤ c ∧ c ≤ b.conc_hi) →
      ∀ x ∈ pre ++ post, ¬ (x.conc_lo ≤ c ∧ c ≤ x.conc_hi)) := by
  have hok := all_tables_ok t ht
  have hhi : t.Pairwise (fun a b => a.conc_hi < b.conc_lo) :=
    hok.2.imp (fun h => h.1)
  have hlo : t.Pairwise (fun a b => a.conc_lo < b.conc_lo) :=
    hok.2.imp_of_mem (fun ha _ h => lt_trans (hok.1 _ ha).1 h.1)
  refine ⟨hlo, hhi, ?_, ?_, ?_⟩
  · intro pre post b1 b2 hsplit
    subst hsplit
    have h1 := (List.pairwise_append.mp hlo).2.1
    have h2 := (List.pairwise_append.mp hhi).2.1
    rw [List.pairwise_cons] at h1 h2
    exact ⟨h1.1 b2 (List.mem_cons_self _ _), h2.1 b2 (List.mem_cons_self _ _)⟩
  · intro c b1 hb1 b2 hb2 h1 h2
    exact table_ok_unique_bucket hok hb1 hb2 h1 h2
  · intro c pre post b hsplit hin
    exact table_ok_no_second_match hok hsplit hin

/-- C9 on the PM2.5 table: the first two buckets are ordered (12.0 < 12.1), and at
concentration 35.4, matched by the second bucket, the third bucket does not match. -/
theorem tables_sorted_disjoint_witness :
    ((0.0 : ℚ) < 12.1 ∧ (12.0 : ℚ) < 12.1) ∧
    ¬ ((35.5 : ℚ) ≤ 35.4 ∧ (35.4 : ℚ) ≤ 55.4) :=
  ⟨(tables_sorted_disjoint pm25_breakpoints (by simp [all_tables])).2.2.1 []
      [⟨35.5, 55.4, 101, 150⟩, ⟨55.5, 150.4, 151, 200⟩, ⟨150.5, 250.4, 201, 300⟩,
        ⟨250.5, 350.4, 301, 400⟩, ⟨350.5, 500.4, 401, 500⟩]
      ⟨0.0, 12.0, 0, 50⟩ ⟨12.1, 35.4, 51, 100⟩ (by simp [pm25_breakpoints]),
   (tables_sorted_disjoint pm25_breakpoints (by simp [all_tables])).2.2.2.2 35.4
      [⟨0.0, 12.0, 0, 50⟩]
      [⟨35.5, 55.4, 101, 150⟩, ⟨55.5, 150.4, 151, 200⟩, ⟨150.5, 250.4, 201, 300⟩,
        ⟨250.5, 350.4, 301, 400⟩, ⟨350.5, 500.4, 401, 500⟩]
      ⟨12.1, 35.4, 51, 100⟩ (by simp [pm25_breakpoints]) (by norm_num)
      ⟨35.5, 55.4, 101, 150⟩ (by simp)⟩

/-! ## A failed sub-index inside the cycle -/

theorem compute_reading_sub_indices (v : raw_values) :
    (compute_reading v).aqi25 = calculate_aqi ((v.pm2p5 : ℚ) / 10.0) pm25_breakpoints ∧
    (compute_reading v).aqi10 = calculate_aqi ((v.pm10p0 : ℚ) / 10.0) pm10_breakpoints ∧
    (compute_reading v).aqi_nox = calculate_aqi ((v.nox_idx : ℚ) / 10.0) nox_breakpoints :=
  ⟨rfl, rfl, rfl⟩

/-- A cycle with data ready, a successful read and the MQTT client set logs the reading and
publishes it. -/
theorem poll_cycle_publishes (inp : cycle_input) (v : raw_values)
    (hready : inp.data_ready = some true) (hval : inp.values = some v)
    (hmqtt : inp.mqtt_client = true) :
    poll_cycle inp =
      [action.read_data_ready, action.read_measured_values,
       action.log log_level.info (log_reading (compute_reading v)),
       action.publish "your topic" (snprintf_payload (compute_reading v)) 1 0,
       action.delay 10000] := by
  obtain ⟨r, vals, m⟩ := inp
  simp only at hready hval hmqtt
  subst hready hval hmqtt
  rfl

/-- C10 fails: for raw counts `pm2p5 = 354`, `pm10p0 = 545`, `nox_idx = 0` the PM10 sub-index
is the failure marker `-1`; the marker goes into the maximum computation together with 100
and 0, and the cycle publishes the resulting overall index 100. -/
theorem failed_sub_index_is_published :
    (compute_reading ⟨12, 354, 58, 545, 4120, 4690, 1200, 0⟩).aqi25 = 100 ∧
    (compute_reading ⟨12, 354, 58, 545, 4120, 4690, 1200, 0⟩).aqi10 = -1 ∧
    (compute_reading ⟨12, 354, 58, 545, 4120, 4690, 1200, 0⟩).aqi_nox = 0 ∧
    (compute_reading ⟨12, 354, 58, 545, 4120, 4690, 1200, 0⟩).aqi = overall_aqi 100 (-1) 0 ∧
    (compute_reading ⟨12, 354, 58, 545, 4120, 4690, 1200, 0⟩).aqi = 100 ∧
    poll_cycle ⟨some true, some ⟨12, 354, 58, 545, 4120, 4690, 1200, 0⟩, true⟩ =
      [action.read_data_ready, action.read_measured_values,
       action.log log_level.info
         (log_reading (compute_reading ⟨12, 354, 58, 545, 4120, 4690, 1200, 0⟩)),
       action.publish "your topic"
         (snprintf_payload (compute_reading ⟨12, 354, 58, 545, 4120, 4690, 1200, 0⟩)) 1 0,
       action.delay 10000] ∧
    (∃ pre, snprintf_payload (compute_reading ⟨12, 354, 58, 545, 4120, 4690, 1200, 0⟩) =
      pre ++ ",\"aqi\":100\x7d") := by
  have a25 : (compute_reading ⟨12, 354, 58, 545, 4120, 4690, 1200, 0⟩).aqi25 = 100 := by
    rw [(compute_reading_sub_indices _).1]
    norm_num [calculate_aqi, pm25_breakpoints, float_to_int]
  have a10 : (compute_reading ⟨12, 354, 58, 545, 4120, 4690, 1200, 0⟩).aqi10 = -1 := by
    rw [(compute_reading_sub_indices _).2.1]
    norm_num [calculate_aqi, pm10_breakpoints]
  have anox : (compute_reading ⟨12, 354, 58, 545, 4120, 4690, 1200, 0⟩).aqi_nox = 0 := by
    rw [(compute_reading_sub_indices _).2.2]
    norm_num [calculate_aqi, nox_breakpoints, float_to_int]
  have amax : (compute_reading ⟨12, 354, 58, 545, 4120, 4690, 1200, 0⟩).aqi
      = overall_aqi 100 (-1) 0 := by
    rw [compute_reading_aqi, a25, a10, anox]
  have a : (compute_reading ⟨12, 354, 58, 545, 4120, 4690, 1200, 0⟩).aqi = 100 := by
    rw [amax]; decide
  refine ⟨a25, a10, anox, amax, a, rfl, ?_⟩
  obtain ⟨pre, hpre⟩ :=
    snprintf_payload_aqi_field (compute_reading ⟨12, 354, 58, 545, 4120, 4690, 1200, 0⟩)
  refine ⟨pre, ?_⟩
  rw [hpre, a, fmt_d_100, String.append_assoc, String.append_assoc]
  rfl

/-- C10 as amended. In every cycle that reaches the computation (data ready, read succeeded,
MQTT client set), whether or not a sub-index computation returned the failure marker `-1`,
the three results are passed unchanged into the maximum computation: the overall index is
the maximum of the three values, which is `-1` exactly when all three failed, and the cycle
publishes the reading with that index in its `aqi` field. -/
theorem failed_sub_index_passes_through (inp : cycle_input) (v : raw_values)
    (hready : inp.data_ready = some true) (hval : inp.values = some v)
    (hmqtt : inp.mqtt_client = true) :
    (compute_reading v).aqi =
      max (compute_reading v).aqi25 (max (compute_reading v).aqi10
        (compute_reading v).aqi_nox) ∧
    ((compute_reading v).aqi = -1 ↔
      ((compute_reading v).aqi25 = -1 ∧ (compute_reading v).aqi10 = -1 ∧
        (compute_reading v).aqi_nox = -1)) ∧
    poll_cycle inp =
      [action.read_data_ready, action.read_measured_values,
       action.log log_level.info (log_reading (compute_reading v)),
       action.publish "your topic" (snprintf_payload (compute_reading v)) 1 0,
       action.delay 10000] ∧
    (∃ pre, snprintf_payload (compute_reading v) =
      pre ++ ",\"aqi\":" ++ fmt_d (compute_reading v).aqi ++ "\x7d") := by
  have amax : (compute_reading v).aqi =
      max (compute_reading v).aqi25 (max (compute_reading v).aqi10
        (compute_reading v).aqi_nox) := by
    rw [compute_reading_aqi, overall_aqi_max]
  have r25 := calculate_aqi_fail_or_range (t := pm25_breakpoints) (by simp [all_tables])
    ((v.pm2p5 : ℚ) / 10.0)
  have r10 := calculate_aqi_fail_or_range (t := pm10_breakpoints) (by simp [all_tables])
    ((v.pm10p0 : ℚ) / 10.0)
  have rnox := calculate_aqi_fail_or_range (t := nox_breakpoints) (by simp [all_tables])
    ((v.nox_idx : ℚ) / 10.0)
  rw [← (compute_reading_sub_indices v).1] at r25
  rw [← (compute_reading_sub_indices v).2.1] at r10
  rw [← (compute_reading_sub_indices v).2.2] at rnox
  refine ⟨amax, ?_, poll_cycle_publishes inp v hready hval hmqtt,
    snprintf_payload_aqi_field _⟩
  rw [amax]
  constructor
  · intro h
    have h1 := le_max_left (compute_reading v).aqi25
      (max (compute_reading v).aqi10 (compute_reading v).aqi_nox)
    have h2 := le_max_left (compute_reading v).aqi10 (compute_reading v).aqi_nox
    have h3 := le_max_right (compute_reading v).aqi10 (compute_reading v).aqi_nox
    have h4 := le_max_right (compute_reading v).aqi25
      (max (compute_reading v).aqi10 (compute_reading v).aqi_nox)
    refine ⟨?_, ?_, ?_⟩ <;> omega
  · rintro ⟨h1, h2, h3⟩
    rw [h1, h2, h3]; decide

/-- C10 as amended, at two inputs: `pm10p0 = 545` alone fails and 100 is published; with
`pm2p5 = 6000`, `pm10p0 = 545`, `nox_idx = 535` all three fail and `-1` is the overall
index. -/
theorem failed_sub_index_passes_through_witness :
    ((compute_reading ⟨12, 354, 58, 545, 4120, 4690, 1200, 0⟩).aqi10 = -1 ∧
      ((compute_reading ⟨12, 354, 58, 545, 4120, 4690, 1200, 0⟩).aqi = -1 ↔
        ((compute_reading ⟨12, 354, 58, 545, 4120, 4690, 1200, 0⟩).aqi25 = -1 ∧
          (compute_reading ⟨12, 354, 58, 545, 4120, 4690, 1200, 0⟩).aqi10 = -1 ∧
          (compute_reading ⟨12, 354, 58, 545, 4120, 4690, 1200, 0⟩).aqi_nox = -1))) ∧
    ((compute_reading ⟨12, 6000, 58, 545, 4120, 4690, 1200, 535⟩).aqi25 = -1 ∧
      (compute_reading ⟨12, 6000, 58, 545, 4120, 4690, 1200, 535⟩).aqi =
        max (compute_reading ⟨12, 6000, 58, 545, 4120, 4690, 1200, 535⟩).aqi25
          (max (compute_reading ⟨12, 6000, 58, 545, 4120, 4690, 1200, 535⟩).aqi10
            (compute_reading ⟨12, 6000, 58, 545, 4120, 4690, 1200, 535⟩).aqi_nox) ∧
      poll_cycle ⟨some true, some ⟨12, 6000, 58, 545, 4120, 4690, 1200, 535⟩, true⟩ =
        [action.read_data_ready, action.read_measured_values,
         action.log log_level.info
           (log_reading (compute_reading ⟨12, 6000, 58, 545, 4120, 4690, 1200, 535⟩)),
         action.publish "your topic"
           (snprintf_payload (compute_reading ⟨12, 6000, 58, 545, 4120, 4690, 1200, 535⟩))
           1 0,
         action.delay 10000]) :=
  have f10 : (compute_reading ⟨12, 354, 58, 545, 4120, 4690, 1200, 0⟩).aqi10 = -1 := by
    rw [(compute_reading_sub_indices _).2.1]
    norm_num [calculate_aqi, pm10_breakpoints]
  have f25 : (compute_reading ⟨12, 6000, 58, 545, 4120, 4690, 1200, 535⟩).aqi25 = -1 := by
    rw [(compute_reading_sub_indices _).1]
    norm_num [calculate_aqi, pm25_breakpoints]
  ⟨⟨f10, (failed_sub_index_passes_through
      ⟨some true, some ⟨12, 354, 58, 545, 4120, 4690, 1200, 0⟩, true⟩ _ rfl rfl rfl).2.1⟩,
   ⟨f25, (failed_sub_index_passes_through
      ⟨some true, some ⟨12, 6000, 58, 545, 4120, 4690, 1200, 535⟩, true⟩ _ rfl rfl rfl).1,
    (failed_sub_index_passes_through
      ⟨some true, some ⟨12, 6000, 58, 545, 4120, 4690, 1200, 535⟩, true⟩ _ rfl rfl
      rfl).2.2.1⟩⟩

/-! ## The five branches of a cycle -/

theorem poll_cycle_query_failed (inp : cycle_input) (h : inp.data_ready = none) :
    poll_cycle inp =
      [action.read_data_ready, action.log log_level.error "Data-ready check failed",
       action.delay 10000] := by
  obtain ⟨r, vals, m⟩ := inp
  simp only at h
  subst h
  rfl

theorem poll_cycle_not_ready (inp : cycle_input) (h : inp.data_ready = some false) :
    poll_cycle inp =
      [action.read_data_ready, action.log log_level.warn "Data not ready",
       action.delay 10000] := by
  obtain ⟨r, vals, m⟩ := inp
  simp only at h
  subst h
  rfl

theorem poll_cycle_read_failed (inp : cycle_input) (hready : inp.data_ready = some true)
    (hval : inp.values = none) :
    poll_cycle inp =
      [action.read_data_ready, action.read_measured_values,
       action.log log_level.error "Failed to read sensor values", action.delay 10000] := by
  obtain ⟨r, vals, m⟩ := inp
  simp only at hready hval
  subst hready hval
  rfl

theorem poll_cycle_no_client (inp : cycle_input) (v : raw_values)
    (hready : inp.data_ready = some true) (hval : inp.values = some v)
    (hmqtt : inp.mqtt_client = false) :
    poll_cycle inp =
      [action.read_data_ready, action.read_measured_values,
       action.log log_level.info (log_reading (compute_reading v)), action.delay 10000] := by
  obtain ⟨r, vals, m⟩ := inp
  simp only at hready hval hmqtt
  subst hready hval hmqtt
  rfl

/-- Every cycle takes one of the five branches. -/
theorem poll_cycle_branches (inp : cycle_input) :
    poll_cycle inp =
      [action.read_data_ready, action.log log_level.error "Data-ready check failed",
       action.delay 10000] ∨
    poll_cycle inp =
      [action.read_data_ready, action.log log_level.warn "Data not ready",
       action.delay 10000] ∨
    poll_cycle inp =
      [action.read_data_ready, action.read_measured_values,
       action.log log_level.error "Failed to read sensor values", action.delay 10000] ∨
    (∃ v, poll_cycle inp =
      [action.read_data_ready, action.read_measured_values,
       action.log log_level.info (log_reading (compute_reading v)), action.delay 10000]) ∨
    (∃ v, poll_cycle inp =
      [action.read_data_ready, action.read_measured_values,
       action.log log_level.info (log_reading (compute_reading v)),
       action.publish "your topic" (snprintf_payload (compute_reading v)) 1 0,
       action.delay 10000]) := by
  obtain ⟨r, vals, m⟩ := inp
  rcases r with _ | _ | _
  · exact Or.inl rfl
  · exact Or.inr (Or.inl rfl)
  · rcases vals with _ | v
    · exact Or.inr (Or.inr (Or.inl rfl))
    · cases m
      · exact Or.inr (Or.inr (Or.inr (Or.inl ⟨v, rfl⟩)))
      · exact Or.inr (Or.inr (Or.inr (Or.inr ⟨v, rfl⟩)))

theorem run_loop_append (xs ys : List cycle_input) :
    run_loop (xs ++ ys) = run_loop xs ++ run_loop ys := by
  induction xs with
  | nil => rfl
  | cons x xs ih =>
    show poll_cycle x ++ run_loop (xs ++ ys) = (poll_cycle x ++ run_loop xs) ++ run_loop ys
    rw [ih, List.append_assoc]

theorem poll_cycle_count_start (inp : cycle_input) :
    (poll_cycle inp).count action.read_data_ready = 1 ∧
    ((poll_cycle inp).filter is_delay) = [action.delay 10000] := by
  rcases poll_cycle_branches inp with h | h | h | ⟨v, h⟩ | ⟨v, h⟩ <;> rw [h] <;>
    constructor <;> simp [is_delay]

/-! ## Claims about start-up and the poll loop -/

/-- C11. If `sen5x_start_measurement` returns non-zero, the acquisition loop never begins:
`app_main` logs the failure and returns, so whatever the cycles would have received there is
no data-ready query, no value read, no publish and no delay, and `sen5x_start_measurement`
is called once only. -/
theorem start_failure_is_fatal (start_result : Int) (hfail : start_result ≠ 0)
    (inputs : List cycle_input) :
    app_main start_result inputs =
      [action.wifi_init, action.mqtt_init, action.sensirion_i2c_hal_init,
       action.log log_level.info "Starting SEN5x measurement...",
       action.start_measurement,
       action.log log_level.error "Failed to start measurement"] ∧
    action.read_data_ready ∉ app_main start_result inputs ∧
    action.read_measured_values ∉ app_main start_result inputs ∧
    (∀ a ∈ app_main start_result inputs, is_publish a = false ∧ is_delay a = false) ∧
    (app_main start_result inputs).count action.start_measurement = 1 := by
  have h : app_main start_result inputs =
      [action.wifi_init, action.mqtt_init, action.sensirion_i2c_hal_init,
       action.log log_level.info "Starting SEN5x measurement...",
       action.start_measurement,
       action.log log_level.error "Failed to start measurement"] := by
    simp only [app_main, if_pos hfail]
    rfl
  rw [h]
  refine ⟨rfl, by simp, by simp, ?_, by simp⟩
  intro a ha
  simp only [List.mem_cons, List.mem_singleton, List.not_mem_nil, or_false] at ha
  rcases ha with rfl | rfl | rfl | rfl | rfl | rfl <;> exact ⟨rfl, rfl⟩

/-- C11 with return value 1 and one cycle's worth of inputs that would have published; for
contrast, with return value 0 the same inputs start the loop. -/
theorem start_failure_is_fatal_witness :
    action.read_data_ready ∉
      app_main 1 [⟨some true, some ⟨12, 354, 58, 250, 4120, 4690, 1200, 0⟩, true⟩] ∧
    (app_main 1 [⟨some true, some ⟨12, 354, 58, 250, 4120, 4690, 1200, 0⟩, true⟩]).count
      action.start_measurement = 1 ∧
    action.read_data_ready ∈
      app_main 0 [⟨some true, some ⟨12, 354, 58, 250, 4120, 4690, 1200, 0⟩, true⟩] :=
  ⟨(start_failure_is_fatal 1 (by decide)
      [⟨some true, some ⟨12, 354, 58, 250, 4120, 4690, 1200, 0⟩, true⟩]).2.1,
   (start_failure_is_fatal 1 (by decide)
      [⟨some true, some ⟨12, 354, 58, 250, 4120, 4690, 1200, 0⟩, true⟩]).2.2.2.2,
   by simp [app_main, run_loop, poll_cycle]⟩

theorem run_loop_counts (inputs : List cycle_input) :
    (run_loop inputs).count action.read_data_ready = inputs.length ∧
    (run_loop inputs).filter is_delay = List.replicate inputs.length (action.delay 10000) := by
  induction inputs with
  | nil => exact ⟨rfl, rfl⟩
  | cons inp rest ih =>
    obtain ⟨h1, h2⟩ := poll_cycle_count_start inp
    constructor
    · show (poll_cycle inp ++ run_loop rest).count action.read_data_ready = rest.length + 1
      rw [List.count_append, h1, ih.1, Nat.add_comm]
    · show (poll_cycle inp ++ run_loop rest).filter is_delay =
        List.replicate (rest.length + 1) (action.delay 10000)
      rw [List.filter_append, h2, ih.2]
      rfl

/-- C12. In every poll cycle: if the data-ready query fails or reports not ready,
`sen5x_read_measured_values` is not called and nothing is published; if the data are ready
and the read fails, nothing is published; in each case the loop goes on to the next cycle,
which starts with its data-ready query, and over any run there are as many cycle starts as
cycles.  A publish occurs only if the query succeeded with `true` and the read succeeded. -/
theorem transient_faults_skip_and_continue (inp : cycle_input) (rest : List cycle_input) :
    ((inp.data_ready = none ∨ inp.data_ready = some false) →
      action.read_measured_values ∉ poll_cycle inp ∧
      ∀ a ∈ poll_cycle inp, is_publish a = false) ∧
    (inp.data_ready = some true → inp.values = none →
      ∀ a ∈ poll_cycle inp, is_publish a = false) ∧
    run_loop (inp :: rest) = poll_cycle inp ++ run_loop rest ∧
    (∀ (next : cycle_input) (later : List cycle_input), rest = next :: later →
      ∃ tail, run_loop (inp :: rest) = poll_cycle inp ++ action.read_data_ready :: tail) ∧
    (run_loop (inp :: rest)).count action.read_data_ready = rest.length + 1 ∧
    ((∃ a ∈ poll_cycle inp, is_publish a = true) →
      inp.data_ready = some true ∧ (∃ v, inp.values = some v) ∧ inp.mqtt_client = true) := by
  refine ⟨?_, ?_, rfl, ?_, (run_loop_counts (inp :: rest)).1, ?_⟩
  · rintro (h | h)
    · rw [poll_cycle_query_failed inp h]
      refine ⟨by simp, ?_⟩
      intro a ha
      simp only [List.mem_cons, List.mem_singleton, List.not_mem_nil, or_false] at ha
      rcases ha with rfl | rfl | rfl <;> rfl
    · rw [poll_cycle_not_ready inp h]
      refine ⟨by simp, ?_⟩
      intro a ha
      simp only [List.mem_cons, List.mem_singleton, List.not_mem_nil, or_false] at ha
      rcases ha with rfl | rfl | rfl <;> rfl
  · intro h1 h2
    rw [poll_cycle_read_failed inp h1 h2]
    intro a ha
    simp only [List.mem_cons, List.mem_singleton, List.not_mem_nil, or_false] at ha
    rcases ha with rfl | rfl | rfl | rfl <;> rfl
  · intro next later hrest
    subst hrest
    exact ⟨_, rfl⟩
  · rintro ⟨a, ha, hpub⟩
    obtain ⟨r, vals, m⟩ := inp
    rcases r with _ | _ | _
    · exfalso
      rw [poll_cycle_query_failed _ rfl] at ha
      simp only [List.mem_cons, List.mem_singleton, List.not_mem_nil, or_false] at ha
      rcases ha with rfl | rfl | rfl <;> cases hpub
    · exfalso
      rw [poll_cycle_not_ready _ rfl] at ha
      simp only [List.mem_cons, List.mem_singleton, List.not_mem_nil, or_false] at ha
      rcases ha with rfl | rfl | rfl <;> cases hpub
    · rcases vals with _ | v
      · exfalso
        rw [poll_cycle_read_failed _ rfl rfl] at ha
        simp only [List.mem_cons, List.mem_singleton, List.not_mem_nil, or_false] at ha
        rcases ha with rfl | rfl | rfl | rfl <;> cases hpub
      · cases m
        · exfalso
          rw [poll_cycle_no_client _ v rfl rfl rfl] at ha
          simp only [List.mem_cons, List.mem_singleton, List.not_mem_nil, or_false] at ha
          rcases ha with rfl | rfl | rfl | rfl <;> cases hpub
        · exact ⟨rfl, ⟨v, rfl⟩, rfl⟩

/-- C12 at a cycle whose data-ready query fails, followed by a cycle that reports not
ready: no read, no publish, and the second cycle starts right after the first. -/
theorem transient_faults_skip_and_continue_witness :
    (action.read_measured_values ∉ poll_cycle ⟨none, none, true⟩ ∧
      ∀ a ∈ poll_cycle ⟨none, none, true⟩, is_publish a = false) ∧
    (∃ tail, run_loop [⟨none, none, true⟩, ⟨some false, none, true⟩] =
      poll_cycle ⟨none, none, true⟩ ++ action.read_data_ready :: tail) :=
  ⟨(transient_faults_skip_and_continue ⟨none, none, true⟩ [⟨some false, none, true⟩]).1
      (Or.inl rfl),
   (transient_faults_skip_and_continue ⟨none, none, true⟩ [⟨some false, none, true⟩]).2.2.2.1
      ⟨some false, none, true⟩ [] rfl⟩

/-- C13. Every poll cycle ends with exactly one delay, of the fixed length
`SENSOR_POLL_DELAY_MS` = 10000 ms, whichever of the five branches it took: the delay is the
last action of the cycle, no other action of the cycle is a delay, and over any run the
delays are as many as the cycles and all of 10000 ms. -/
theorem every_cycle_ends_with_one_fixed_delay (inp : cycle_input)
    (inputs : List cycle_input) :
    (∃ pre, poll_cycle inp = pre ++ [action.delay SENSOR_POLL_DELAY_MS] ∧
      ∀ a ∈ pre, is_delay a = false) ∧
    SENSOR_POLL_DELAY_MS = 10000 ∧
    (poll_cycle inp).filter is_delay = [action.delay 10000] ∧
    (run_loop inputs).filter is_delay = List.replicate inputs.length (action.delay 10000) := by
  refine ⟨?_, rfl, (poll_cycle_count_start inp).2, (run_loop_counts inputs).2⟩
  rcases poll_cycle_branches inp with h | h | h | ⟨v, h⟩ | ⟨v, h⟩
  · refine ⟨[action.read_data_ready,
      action.log log_level.error "Data-ready check failed"], by rw [h]; rfl, ?_⟩
    intro a ha
    simp only [List.mem_cons, List.mem_singleton, List.not_mem_nil, or_false] at ha
    rcases ha with rfl | rfl <;> rfl
  · refine ⟨[action.read_data_ready,
      action.log log_level.warn "Data not ready"], by rw [h]; rfl, ?_⟩
    intro a ha
    simp only [List.mem_cons, List.mem_singleton, List.not_mem_nil, or_false] at ha
    rcases ha with rfl | rfl <;> rfl
  · refine ⟨[action.read_data_ready, action.read_measured_values,
      action.log log_level.error "Failed to read sensor values"], by rw [h]; rfl, ?_⟩
    intro a ha
    simp only [List.mem_cons, List.mem_singleton, List.not_mem_nil, or_false] at ha
    rcases ha with rfl | rfl | rfl <;> rfl
  · refine ⟨[action.read_data_ready, action.read_measured_values,
      action.log log_level.info (log_reading (compute_reading v))], by rw [h]; rfl, ?_⟩
    intro a ha
    simp only [List.mem_cons, List.mem_singleton, List.not_mem_nil, or_false] at ha
    rcases ha with rfl | rfl | rfl <;> rfl
  · refine ⟨[action.read_data_ready, action.read_measured_values,
      action.log log_level.info (log_reading (compute_reading v)),
      action.publish "your topic" (snprintf_payload (compute_reading v)) 1 0],
      by rw [h]; rfl, ?_⟩
    intro a ha
    simp only [List.mem_cons, List.mem_singleton, List.not_mem_nil, or_false] at ha
    rcases ha with rfl | rfl | rfl | rfl <;> rfl

/-! ## The publish step -/

/-- C14 fails: with the handle `mqtt_client` set and the broker connection down, the publish
step still serializes the reading and calls `esp_mqtt_client_publish`. -/
theorem publish_ignores_readiness :
    (⟨true, false⟩ : sink_state).connected = false ∧
    publish_to_sink ⟨true, false⟩ (compute_reading ⟨12, 53, 58, 60, 4120, 4690, 1200, 50⟩) =
      [action.publish "your topic"
        (snprintf_payload (compute_reading ⟨12, 53, 58, 60, 4120, 4690, 1200, 50⟩)) 1 0] ∧
    publish_to_sink ⟨true, false⟩ (compute_reading ⟨12, 53, 58, 60, 4120, 4690, 1200, 50⟩)
      ≠ [] :=
  ⟨rfl, rfl, by rw [show publish_to_sink ⟨true, false⟩
      (compute_reading ⟨12, 53, 58, 60, 4120, 4690, 1200, 50⟩) =
      [action.publish "your topic"
        (snprintf_payload (compute_reading ⟨12, 53, 58, 60, 4120, 4690, 1200, 50⟩)) 1 0]
      from rfl]; exact List.cons_ne_nil _ _⟩

/-- C14 as amended. For every reading, if the handle `mqtt_client` is NULL the publish step
performs no send and the reading is dropped; whenever the handle is set, whether or not the
connection is up at publish time, the reading is serialized and handed to
`esp_mqtt_client_publish` exactly once for that cycle. -/
theorem publish_gated_by_handle_only (s : sink_state) (r : reading) :
    (s.client_set = false → publish_to_sink s r = []) ∧
    (s.client_set = true →
      publish_to_sink s r = [action.publish "your topic" (snprintf_payload r) 1 0]) ∧
    (∀ (inp : cycle_input) (v : raw_values), inp.data_ready = some true →
      inp.values = some v → inp.mqtt_client = s.client_set →
      (poll_cycle inp).filter is_publish =
        if s.client_set then
          [action.publish "your topic" (snprintf_payload (compute_reading v)) 1 0]
        else []) := by
  obtain ⟨c, k⟩ := s
  refine ⟨?_, ?_, ?_⟩
  · intro h
    simp only at h
    subst h
    rfl
  · intro h
    simp only at h
    subst h
    rfl
  · intro inp v h1 h2 h3
    simp only at h3
    cases c
    · rw [poll_cycle_no_client inp v h1 h2 h3]
      rfl
    · rw [poll_cycle_publishes inp v h1 h2 h3]
      rfl

/-- C14 as amended, at a sink whose handle is set but whose connection is down, and at a sink
without handle. -/
theorem publish_gated_by_handle_only_witness :
    publish_to_sink ⟨true, false⟩ (compute_reading ⟨12, 53, 58, 60, 4120, 4690, 1200, 50⟩) =
      [action.publish "your topic"
        (snprintf_payload (compute_reading ⟨12, 53, 58, 60, 4120, 4690, 1200, 50⟩)) 1 0] ∧
    publish_to_sink ⟨false, true⟩ (compute_reading ⟨12, 53, 58, 60, 4120, 4690, 1200, 50⟩) =
      [] :=
  ⟨(publish_gated_by_handle_only ⟨true, false⟩ _).2.1 rfl,
   (publish_gated_by_handle_only ⟨false, true⟩ _).1 rfl⟩

/-! ## The wire record -/

theorem pad_zeros_digit (k : Nat) (hk : k < 10) :
    (pad_zeros 1 (toString k)).length = 1 ∧
    (pad_zeros 1 (toString k)).data.all Char.isDigit = true := by
  interval_cases k <;> exact ⟨by decide, by decide⟩

theorem pad_zeros_two_digits (k : Nat) (hk : k < 100) :
    (pad_zeros 2 (toString k)).length = 2 ∧
    (pad_zeros 2 (toString k)).data.all Char.isDigit = true := by
  interval_cases k <;> exact ⟨by decide, by decide⟩

/-- The conversion `%.1f` writes a decimal point followed by one digit. -/
theorem fmt_f_one_decimal (x : ℚ) :
    ∃ whole frac : String, fmt_f 1 x = whole ++ "." ++ frac ∧ frac.length = 1 ∧
      frac.data.all Char.isDigit = true := by
  exact ⟨(if x < 0 then "-" else "") ++
      toString (round_half_even (|x| * (10 : ℚ) ^ 1) / 10 ^ 1),
    pad_zeros 1 (toString (round_half_even (|x| * (10 : ℚ) ^ 1) % 10 ^ 1)),
    (String.append_assoc _ "." _).symm,
    pad_zeros_digit _ (Nat.mod_lt _ (by norm_num))⟩

/-- The conversion `%.2f` writes a decimal point followed by two digits. -/
theorem fmt_f_two_decimals (x : ℚ) :
    ∃ whole frac : String, fmt_f 2 x = whole ++ "." ++ frac ∧ frac.length = 2 ∧
      frac.data.all Char.isDigit = true := by
  exact ⟨(if x < 0 then "-" else "") ++
      toString (round_half_even (|x| * (10 : ℚ) ^ 2) / 10 ^ 2),
    pad_zeros 2 (toString (round_half_even (|x| * (10 : ℚ) ^ 2) % 10 ^ 2)),
    (String.append_assoc _ "." _).symm,
    pad_zeros_two_digits _ (Nat.mod_lt _ (by norm_num))⟩

/-- C16. Serializing a reading produces a record with the nine keys `pm1`, `pm2_5`, `pm4`,
`pm10`, `temp`, `rh`, `voc`, `nox`, `aqi` in that order; `pm1`, `pm2_5`, `pm4`, `pm10`, `voc`
and `nox` are rendered with one decimal place, `temp` and `rh` with two, and `aqi` as a plain
integer.  For the reading pm1=1.2, pm2_5=5.3, pm4=5.8, pm10=6.0, temp=23.45, rh=41.20,
voc=120.0, nox=5.0, aqi=45 the record is exactly
`{"pm1":1.2,"pm2_5":5.3,"pm4":5.8,"pm10":6.0,"temp":23.45,"rh":41.20,"voc":120.0,"nox":5.0,"aqi":45}`. -/
theorem wire_record_layout :
    (∀ r : reading, snprintf_payload r =
      "\x7b\"pm1\":" ++ fmt_f 1 r.pm1 ++ ",\"pm2_5\":" ++ fmt_f 1 r.pm2_5 ++
      ",\"pm4\":" ++ fmt_f 1 r.pm4 ++ ",\"pm10\":" ++ fmt_f 1 r.pm10 ++
      ",\"temp\":" ++ fmt_f 2 r.temp ++ ",\"rh\":" ++ fmt_f 2 r.rh ++
      ",\"voc\":" ++ fmt_f 1 r.voc ++ ",\"nox\":" ++ fmt_f 1 r.nox ++
      ",\"aqi\":" ++ toString r.aqi ++ "\x7d") ∧
    (∀ x : ℚ, ∃ whole frac : String, fmt_f 1 x = whole ++ "." ++ frac ∧ frac.length = 1 ∧
      frac.data.all Char.isDigit = true) ∧
    (∀ x : ℚ, ∃ whole frac : String, fmt_f 2 x = whole ++ "." ++ frac ∧ frac.length = 2 ∧
      frac.data.all Char.isDigit = true) ∧
    (∀ aqi25 aqi10 aqi_nox : Int,
      snprintf_payload ⟨1.2, 5.3, 5.8, 6.0, 23.45, 41.20, 120.0, 5.0, aqi25, aqi10, aqi_nox, 45⟩ =
        "\x7b\"pm1\":1.2,\"pm2_5\":5.3,\"pm4\":5.8,\"pm10\":6.0,\"temp\":23.45,\"rh\":41.20,\"voc\":120.0,\"nox\":5.0,\"aqi\":45\x7d") := by
  refine ⟨fun r => rfl, fmt_f_one_decimal, fmt_f_two_decimals, ?_⟩
  intro aqi25 aqi10 aqi_nox
  show "\x7b\"pm1\":" ++ fmt_f 1 1.2 ++ ",\"pm2_5\":" ++ fmt_f 1 5.3 ++
      ",\"pm4\":" ++ fmt_f 1 5.8 ++ ",\"pm10\":" ++ fmt_f 1 6.0 ++
      ",\"temp\":" ++ fmt_f 2 23.45 ++ ",\"rh\":" ++ fmt_f 2 41.20 ++
      ",\"voc\":" ++ fmt_f 1 120.0 ++ ",\"nox\":" ++ fmt_f 1 5.0 ++
      ",\"aqi\":" ++ fmt_d 45 ++ "\x7d" = _
  decide!

/-! ## Failed sub-indices in the maximum -/

/-- C17. For sub-index results `aqi25`, `aqi10`, `aqi_nox`, each the failure marker `-1` or a
value in `[0, 500]`: the overall AQI is `-1` if and only if all three failed; otherwise it is
the maximum of the sub-indices that succeeded, so a failed sub-index is ignored whenever
another succeeded.  The sub-indices a cycle computes have that shape, and the cycle publishes
the reading whatever they are. -/
theorem failed_sub_indices_are_ignored (aqi25 aqi10 aqi_nox : Int)
    (h25 : aqi25 = -1 ∨ (0 ≤ aqi25 ∧ aqi25 ≤ 500))
    (h10 : aqi10 = -1 ∨ (0 ≤ aqi10 ∧ aqi10 ≤ 500))
    (hnox : aqi_nox = -1 ∨ (0 ≤ aqi_nox ∧ aqi_nox ≤ 500)) :
    (overall_aqi aqi25 aqi10 aqi_nox = -1 ↔ (aqi25 = -1 ∧ aqi10 = -1 ∧ aqi_nox = -1)) ∧
    (¬ (aqi25 = -1 ∧ aqi10 = -1 ∧ aqi_nox = -1) →
      overall_aqi aqi25 aqi10 aqi_nox ∈
        [aqi25, aqi10, aqi_nox].filter (fun x => decide (x ≠ -1)) ∧
      ∀ x ∈ [aqi25, aqi10, aqi_nox].filter (fun x => decide (x ≠ -1)),
        x ≤ overall_aqi aqi25 aqi10 aqi_nox) ∧
    (∀ v : raw_values,
      ((compute_reading v).aqi25 = -1 ∨
        (0 ≤ (compute_reading v).aqi25 ∧ (compute_reading v).aqi25 ≤ 500)) ∧
      ((compute_reading v).aqi10 = -1 ∨
        (0 ≤ (compute_reading v).aqi10 ∧ (compute_reading v).aqi10 ≤ 500)) ∧
      ((compute_reading v).aqi_nox = -1 ∨
        (0 ≤ (compute_reading v).aqi_nox ∧ (compute_reading v).aqi_nox ≤ 500)) ∧
      (compute_reading v).aqi = overall_aqi (compute_reading v).aqi25
        (compute_reading v).aqi10 (compute_reading v).aqi_nox) ∧
    (∀ (inp : cycle_input) (v : raw_values), inp.data_ready = some true →
      inp.values = some v → inp.mqtt_client = true →
      action.publish "your topic" (snprintf_payload (compute_reading v)) 1 0
        ∈ poll_cycle inp) := by
  refine ⟨?_, ?_, ?_, ?_⟩
  · rw [overall_aqi_max]
    constructor
    · intro h
      have e1 := le_max_left aqi25 (max aqi10 aqi_nox)
      have e2 := le_max_right aqi25 (max aqi10 aqi_nox)
      have e3 := le_max_left aqi10 aqi_nox
      have e4 := le_max_right aqi10 aqi_nox
      refine ⟨?_, ?_, ?_⟩ <;> omega
    · rintro ⟨rfl, rfl, rfl⟩
      decide
  · intro hnot
    rw [overall_aqi_max]
    have m1 : max aqi10 aqi_nox = aqi10 ∨ max aqi10 aqi_nox = aqi_nox := by
      rcases le_total aqi10 aqi_nox with h | h
      · exact Or.inr (max_eq_right h)
      · exact Or.inl (max_eq_left h)
    have m2 : max aqi25 (max aqi10 aqi_nox) = aqi25 ∨
        max aqi25 (max aqi10 aqi_nox) = max aqi10 aqi_nox := by
      rcases le_total aqi25 (max aqi10 aqi_nox) with h | h
      · exact Or.inr (max_eq_right h)
      · exact Or.inl (max_eq_left h)
    have e1 := le_max_left aqi25 (max aqi10 aqi_nox)
    have e2 := le_max_right aqi25 (max aqi10 aqi_nox)
    have e3 := le_max_left aqi10 aqi_nox
    have e4 := le_max_right aqi10 aqi_nox
    constructor
    · simp only [List.mem_filter, List.mem_cons, List.mem_singleton, List.not_mem_nil,
        or_false, decide_eq_true_eq]
      refine ⟨?_, ?_⟩
      · rcases m2 with h | h
        · exact Or.inl h
        · rcases m1 with h' | h'
          · exact Or.inr (Or.inl (h.trans h'))
          · exact Or.inr (Or.inr (h.trans h'))
      · intro h
        apply hnot
        refine ⟨?_, ?_, ?_⟩ <;> omega
    · intro x hx
      simp only [List.mem_filter, List.mem_cons, List.mem_singleton, List.not_mem_nil,
        or_false, decide_eq_true_eq] at hx
      rcases hx.1 with rfl | rfl | rfl <;> omega
  · intro v
    refine ⟨?_, ?_, ?_, compute_reading_aqi v⟩
    · rw [(compute_reading_sub_indices v).1]
      exact calculate_aqi_fail_or_range (by simp [all_tables]) _
    · rw [(compute_reading_sub_indices v).2.1]
      exact calculate_aqi_fail_or_range (by simp [all_tables]) _
    · rw [(compute_reading_sub_indices v).2.2]
      exact calculate_aqi_fail_or_range (by simp [all_tables]) _
  · intro inp v h1 h2 h3
    rw [poll_cycle_publishes inp v h1 h2 h3]
    simp

/-- C17 at the sub-indices 100, -1, 0 (one failed, overall 100) and -1, -1, -1 (all failed,
overall -1). -/
theorem failed_sub_indices_are_ignored_witness :
    (overall_aqi 100 (-1) 0 ∈ [(100 : Int), -1, 0].filter (fun x => decide (x ≠ -1)) ∧
      ∀ x ∈ [(100 : Int), -1, 0].filter (fun x => decide (x ≠ -1)),
        x ≤ overall_aqi 100 (-1) 0) ∧
    (overall_aqi (-1) (-1) (-1) = -1 ↔ ((-1 : Int) = -1 ∧ (-1 : Int) = -1 ∧ (-1 : Int) = -1)) ∧
    overall_aqi 100 (-1) 0 = 100 ∧ overall_aqi (-1) (-1) (-1) = -1 :=
  ⟨(failed_sub_indices_are_ignored 100 (-1) 0 (Or.inr (by decide)) (Or.inl rfl)
      (Or.inr (by decide))).2.1 (by decide),
   (failed_sub_indices_are_ignored (-1) (-1) (-1) (Or.inl rfl) (Or.inl rfl)
      (Or.inl rfl)).1,
   by decide, by decide⟩

/-! ## The tables at the sensor's resolution -/

/-- C19. For the PM10 table there is a raw count `pm10p0` with `0 ≤ pm10p0 ≤ 6040`, namely
545 (54.5 µg/m³), whose converted concentration lies in no bucket, so that `calculate_aqi`
returns `-1` inside the table's span; for the NOx table there is a raw `nox_idx` with
`0 ≤ nox_idx ≤ 20490`, namely 535 (53.5), for which `calculate_aqi` returns `-1`.  The cycle
computes these sub-indices for such counts. -/
theorem pm10_and_nox_fail_inside_span :
    (∃ pm10p0 : Nat, pm10p0 ≤ 6040 ∧
      (∀ b ∈ pm10_breakpoints,
        ¬ (b.conc_lo ≤ (pm10p0 : ℚ) / 10.0 ∧ (pm10p0 : ℚ) / 10.0 ≤ b.conc_hi)) ∧
      calculate_aqi ((pm10p0 : ℚ) / 10.0) pm10_breakpoints = -1) ∧
    calculate_aqi (((545 : Nat) : ℚ) / 10.0) pm10_breakpoints = -1 ∧
    (∃ nox_idx : Int, 0 ≤ nox_idx ∧ nox_idx ≤ 20490 ∧
      (∀ b ∈ nox_breakpoints,
        ¬ (b.conc_lo ≤ (nox_idx : ℚ) / 10.0 ∧ (nox_idx : ℚ) / 10.0 ≤ b.conc_hi)) ∧
      calculate_aqi ((nox_idx : ℚ) / 10.0) nox_breakpoints = -1) ∧
    calculate_aqi (((535 : Int) : ℚ) / 10.0) nox_breakpoints = -1 ∧
    (∀ v : raw_values, v.pm10p0 = 545 → (compute_reading v).aqi10 = -1) ∧
    (∀ v : raw_values, v.nox_idx = 535 → (compute_reading v).aqi_nox = -1) := by
  have n10 : ∀ b ∈ pm10_breakpoints,
      ¬ (b.conc_lo ≤ ((545 : Nat) : ℚ) / 10.0 ∧ ((545 : Nat) : ℚ) / 10.0 ≤ b.conc_hi) := by
    intro b hb
    simp only [pm10_breakpoints, List.mem_cons, List.mem_singleton, List.not_mem_nil,
      or_false] at hb
    rcases hb with rfl | rfl | rfl | rfl | rfl | rfl | rfl <;> norm_num
  have nnox : ∀ b ∈ nox_breakpoints,
      ¬ (b.conc_lo ≤ ((535 : Int) : ℚ) / 10.0 ∧ ((535 : Int) : ℚ) / 10.0 ≤ b.conc_hi) := by
    intro b hb
    simp only [nox_breakpoints, List.mem_cons, List.mem_singleton, List.not_mem_nil,
      or_false] at hb
    rcases hb with rfl | rfl | rfl | rfl | rfl | rfl | rfl <;> norm_num
  have f10 : calculate_aqi (((545 : Nat) : ℚ) / 10.0) pm10_breakpoints = -1 :=
    calculate_aqi_no_match _ _ n10
  have fnox : calculate_aqi (((535 : Int) : ℚ) / 10.0) nox_breakpoints = -1 :=
    calculate_aqi_no_match _ _ nnox
  refine ⟨⟨545, by decide, n10, f10⟩, f10, ⟨535, by decide, by decide, nnox, fnox⟩, fnox,
    ?_, ?_⟩
  · intro v hv
    rw [(compute_reading_sub_indices v).2.1, hv]
    exact f10
  · intro v hv
    rw [(compute_reading_sub_indices v).2.2, hv]
    exact fnox

/-- In the three tables every bucket's index range is strictly increasing. -/
theorem all_tables_aqi_strict : ∀ t ∈ all_tables, ∀ b ∈ t, b.aqi_lo < b.aqi_hi := by
  intro t ht b hb
  simp only [all_tables, List.mem_cons, List.mem_singleton, List.not_mem_nil, or_false] at ht
  rcases ht with rfl | rfl | rfl
  · simp only [pm25_breakpoints, List.mem_cons, List.mem_singleton, List.not_mem_nil,
      or_false] at hb
    rcases hb with rfl | rfl | rfl | rfl | rfl | rfl | rfl <;> norm_num
  · simp only [pm10_breakpoints, List.mem_cons, List.mem_singleton, List.not_mem_nil,
      or_false] at hb
    rcases hb with rfl | rfl | rfl | rfl | rfl | rfl | rfl <;> norm_num
  · simp only [nox_breakpoints, List.mem_cons, List.mem_singleton, List.not_mem_nil,
      or_false] at hb
    rcases hb with rfl | rfl | rfl | rfl | rfl | rfl | rfl <;> norm_num

/-- C20. In each of the three tables every bucket has `conc_lo < conc_hi` and
`aqi_lo < aqi_hi`: the divisor `conc_hi - conc_lo` of the interpolation is strictly positive,
so the division is never by zero, and the slope
`(aqi_hi - aqi_lo) / (conc_hi - conc_lo)` is strictly positive. -/
theorem buckets_have_positive_width_and_slope (t : List aqi_breakpoint_t)
    (ht : t ∈ all_tables) (b : aqi_breakpoint_t) (hb : b ∈ t) :
    b.conc_lo < b.conc_hi ∧ b.aqi_lo < b.aqi_hi ∧
    0 < b.conc_hi - b.conc_lo ∧ b.conc_hi - b.conc_lo ≠ 0 ∧
    0 < ((b.aqi_hi - b.aqi_lo : Int) : ℚ) / (b.conc_hi - b.conc_lo) := by
  have hw := ((all_tables_ok t ht).1 b hb).1
  have hi := all_tables_aqi_strict t ht b hb
  have hw' : 0 < b.conc_hi - b.conc_lo := sub_pos.mpr hw
  have hi' : (0 : ℚ) < ((b.aqi_hi - b.aqi_lo : Int) : ℚ) := by
    exact_mod_cast sub_pos.mpr hi
  exact ⟨hw, hi, hw', hw'.ne', div_pos hi' hw'⟩

/-- C20 at the second PM2.5 bucket: width 23.3, index range 51 to 100. -/
theorem buckets_have_positive_width_and_slope_witness :
    (12.1 : ℚ) < 35.4 ∧ (51 : Int) < 100 ∧ (0 : ℚ) < 35.4 - 12.1 ∧ (35.4 : ℚ) - 12.1 ≠ 0 ∧
    0 < (((100 : Int) - 51 : Int) : ℚ) / (35.4 - 12.1) :=
  buckets_have_positive_width_and_slope pm25_breakpoints (by simp [all_tables])
    ⟨12.1, 35.4, 51, 100⟩ (by simp [pm25_breakpoints])

/-! ## Rounding to binary32 -/

theorem b32_round_ties_even_err (y : ℚ) :
    |((Binary32.round_ties_even y : Int) : ℚ) - y| ≤ 1 / 2 := by
  have h1 := Int.floor_le y
  have h2 := Int.lt_floor_add_one y
  unfold Binary32.round_ties_even
  simp only
  rw [abs_le]
  split_ifs with a b c <;> push_cast <;> constructor <;> linarith

theorem b32_round_ties_even_nonneg {y : ℚ} (h : 0 ≤ y) : 0 ≤ Binary32.round_ties_even y := by
  have h1 : (0 : Int) ≤ ⌊y⌋ := Int.floor_nonneg.mpr h
  unfold Binary32.round_ties_even
  simp only
  split_ifs <;> omega

theorem b32_exponent_search_spec (a : ℚ) (lo : Int) (n : Nat) :
    (Binary32.exponent_search a lo n = lo ∨ (2 : ℚ) ^ Binary32.exponent_search a lo n ≤ a) ∧
    lo ≤ Binary32.exponent_search a lo n ∧
    Binary32.exponent_search a lo n ≤ lo + (n : Int) ∧
    (a < (2 : ℚ) ^ (lo + (n : Int) + 1) → a < (2 : ℚ) ^ (Binary32.exponent_search a lo n + 1)) := by
  induction n with
  | zero =>
    refine ⟨Or.inl rfl, le_refl _, by simp [Binary32.exponent_search], ?_⟩
    intro h
    simpa [Binary32.exponent_search] using h
  | succ n ih =>
    unfold Binary32.exponent_search
    split_ifs with h
    · refine ⟨Or.inr h, by omega, le_refl _, fun h2 => h2⟩
    · obtain ⟨h1, h2, h3, h4⟩ := ih
      refine ⟨h1, h2, by push_cast at h3 ⊢; omega, ?_⟩
      intro _
      apply h4
      have : lo + ((n + 1 : Nat) : Int) = lo + (n : Int) + 1 := by push_cast; ring
      rw [this] at h
      exact lt_of_not_ge h

/-- The exponent brackets `|x|` by powers of two, inside the range of binary32. -/
theorem b32_exponent_spec (x : ℚ) (h1 : (2 : ℚ) ^ (-126 : Int) ≤ |x|)
    (h2 : |x| < (2 : ℚ) ^ (129 : Int)) :
    (2 : ℚ) ^ Binary32.exponent x ≤ |x| ∧ |x| < (2 : ℚ) ^ (Binary32.exponent x + 1) := by
  obtain ⟨a, _, _, d⟩ := b32_exponent_search_spec |x| (-126) 254
  constructor
  · rcases a with a | a
    · unfold Binary32.exponent
      rw [a]
      exact h1
    · exact a
  · exact d (by norm_num at h2 ⊢; exact h2)

theorem b32_quantum_pos (x : ℚ) : 0 < Binary32.quantum x := by
  unfold Binary32.quantum
  positivity

theorem b32_quantum_le (x : ℚ) :
    Binary32.quantum x ≤ |x| * (2 : ℚ) ^ (-23 : Int) + (2 : ℚ) ^ (-149 : Int) := by
  have hpos : 0 ≤ |x| := abs_nonneg x
  obtain ⟨a, _, _, _⟩ := b32_exponent_search_spec |x| (-126) 254
  unfold Binary32.quantum Binary32.exponent
  rcases a with h | h
  · rw [h]
    have : (0 : ℚ) ≤ |x| * (2 : ℚ) ^ (-23 : Int) := by positivity
    have e : ((-126 : Int) - 23) = (-149 : Int) := by norm_num
    rw [e]
    linarith
  · rw [zpow_sub₀ (by norm_num : (2 : ℚ) ≠ 0)]
    have e : (2 : ℚ) ^ Binary32.exponent_search |x| (-126) 254 / (2 : ℚ) ^ (23 : Int)
        ≤ |x| * (2 : ℚ) ^ (-23 : Int) := by
      rw [zpow_neg, div_eq_mul_inv]
      exact mul_le_mul_of_nonneg_right h (by positivity)
    have : (0 : ℚ) ≤ (2 : ℚ) ^ (-149 : Int) := by positivity
    linarith

theorem b32_round_zero : Binary32.f32_round 0 = 0 := by
  unfold Binary32.f32_round Binary32.round_ties_even
  simp

theorem b32_round_err (x : ℚ) :
    |Binary32.f32_round x - x| ≤ Binary32.quantum x / 2 := by
  have hq := b32_quantum_pos x
  have h := b32_round_ties_even_err (x / Binary32.quantum x)
  have e : Binary32.f32_round x - x =
      (((Binary32.round_ties_even (x / Binary32.quantum x) : Int) : ℚ) - x / Binary32.quantum x)
        * Binary32.quantum x := by
    unfold Binary32.f32_round
    field_simp
  rw [e, abs_mul, abs_of_pos hq]
  calc _ ≤ 1 / 2 * Binary32.quantum x := mul_le_mul_of_nonneg_right h hq.le
    _ = Binary32.quantum x / 2 := by ring

/-- The rounding error of binary32: relative `2 ^ -24`, absolute `2 ^ -150` near zero. -/
theorem b32_round_abs_err (x : ℚ) :
    |Binary32.f32_round x - x| ≤ |x| * (2 : ℚ) ^ (-24 : Int) + (2 : ℚ) ^ (-150 : Int) := by
  by_cases hx : x = 0
  · subst hx
    rw [b32_round_zero]
    simp
    positivity
  · have h1 := b32_round_err x
    have h2 := b32_quantum_le x
    have e1 : |x| * (2 : ℚ) ^ (-24 : Int) = |x| * (2 : ℚ) ^ (-23 : Int) / 2 := by
      rw [show (-24 : Int) = -23 - 1 by norm_num, zpow_sub₀ (by norm_num : (2 : ℚ) ≠ 0)]
      simp
      ring
    have e2 : (2 : ℚ) ^ (-150 : Int) = (2 : ℚ) ^ (-149 : Int) / 2 := by
      rw [show (-150 : Int) = -149 - 1 by norm_num, zpow_sub₀ (by norm_num : (2 : ℚ) ≠ 0)]
      simp
    rw [e1, e2]
    generalize |x| * (2 : ℚ) ^ (-23 : Int) = a at h2 ⊢
    generalize (2 : ℚ) ^ (-149 : Int) = b at h2 ⊢
    linarith

theorem b32_round_nonneg {x : ℚ} (h : 0 ≤ x) : 0 ≤ Binary32.f32_round x := by
  have hq := b32_quantum_pos x
  unfold Binary32.f32_round
  have : 0 ≤ Binary32.round_ties_even (x / Binary32.quantum x) :=
    b32_round_ties_even_nonneg (div_nonneg h hq.le)
  have : (0 : ℚ) ≤ ((Binary32.round_ties_even (x / Binary32.quantum x) : Int) : ℚ) := by
    exact_mod_cast this
  positivity

/-- A crude bound that rules out overflow. -/
theorem b32_round_le {x : ℚ} (h : 0 ≤ x) : Binary32.f32_round x ≤ 2 * x + 1 := by
  have e := b32_round_abs_err x
  rw [abs_of_nonneg h] at e
  have e1 : x * (2 : ℚ) ^ (-24 : Int) ≤ x := by
    have : (2 : ℚ) ^ (-24 : Int) ≤ 1 := by norm_num
    nlinarith
  have e2 : (2 : ℚ) ^ (-150 : Int) ≤ 1 := by
    rw [zpow_neg]
    apply inv_le_one_of_one_le₀
    exact one_le_zpow₀ (by norm_num) (by norm_num)
  have e3 := (abs_le.mp e).2
  generalize x * (2 : ℚ) ^ (-24 : Int) = a at e1 e3
  generalize (2 : ℚ) ^ (-150 : Int) = b at e2 e3
  linarith

theorem b32_round_ge {x : ℚ} (h : 1 ≤ x) : x / 2 ≤ Binary32.f32_round x := by
  have e := b32_round_abs_err x
  rw [abs_of_nonneg (by linarith : 0 ≤ x)] at e
  have e1 : x * (2 : ℚ) ^ (-24 : Int) ≤ x / 4 := by
    have : (2 : ℚ) ^ (-24 : Int) ≤ 1 / 4 := by norm_num
    nlinarith
  have e2 : (2 : ℚ) ^ (-150 : Int) ≤ 1 / 4 := by
    rw [zpow_neg, show (1 / 4 : ℚ) = ((2 : ℚ) ^ (2 : Int))⁻¹ by norm_num]
    apply inv_anti₀ (by positivity)
    exact zpow_le_zpow_right₀ (by norm_num) (by norm_num)
  have e3 := (abs_le.mp e).1
  generalize x * (2 : ℚ) ^ (-24 : Int) = a at e1 e3
  generalize (2 : ℚ) ^ (-150 : Int) = b at e2 e3
  linarith

/-! ## The binary32 `calculate_aqi` -/

theorem b32_f32_eq_some {x y : ℚ} (h : Binary32.f32 x = some y) : y = Binary32.f32_round x := by
  unfold Binary32.f32 at h
  split_ifs at h
  exact (Option.some.inj h).symm

theorem b32_int32_eq_some {i j : Int} (h : Binary32.int32 i = some j) : j = i := by
  unfold Binary32.int32 at h
  split_ifs at h
  exact (Option.some.inj h).symm

theorem b32_f32_div_eq_some {x y z : ℚ} (h : Binary32.f32_div x y = some z) :
    y ≠ 0 ∧ z = Binary32.f32_round (x / y) := by
  unfold Binary32.f32_div at h
  split_ifs at h with hy
  exact ⟨hy, b32_f32_eq_some h⟩

theorem b32_f32_of_bounds {x : ℚ} (h0 : 0 ≤ x) (hB : x ≤ 2 ^ 100) :
    Binary32.f32 x = some (Binary32.f32_round x) := by
  have h1 := b32_round_nonneg h0
  have h2 := b32_round_le h0
  unfold Binary32.f32
  rw [if_pos]
  rw [abs_of_nonneg h1]
  have : (2 : ℚ) * 2 ^ 100 + 1 < 2 ^ 128 := by norm_num
  linarith

theorem b32_lit_half : Binary32.lit 0.5 = 1 / 2 := by decide!

/-- The value of lines 70-75 when it is defined: the formula with one rounding per
operation. -/
theorem b32_interpolate_value {conc : ℚ} {b : aqi_breakpoint_t} {v : Int}
    (h : Binary32.interpolate conc b = some v) :
    Binary32.f32_round (b.conc_hi - b.conc_lo) ≠ 0 ∧
    v = float_to_int
      (Binary32.f32_round
        (Binary32.f32_round
          (Binary32.f32_round
            (Binary32.f32_round
              (Binary32.f32_round ((b.aqi_hi - b.aqi_lo : Int) : ℚ) /
                Binary32.f32_round (b.conc_hi - b.conc_lo))
              * Binary32.f32_round (conc - b.conc_lo))
            + Binary32.f32_round (b.aqi_lo : ℚ))
          + 0.5)) := by
  simp only [Binary32.interpolate, Option.bind_eq_bind, Option.bind_eq_some] at h
  obtain ⟨range, h1, width, h2, slope, h3, offset, h4, scaled, h5, aqi, h6, rounded, h7, h8⟩ := h
  have e1 := b32_int32_eq_some h1
  have e2 := b32_f32_eq_some h2
  obtain ⟨n3, e3⟩ := b32_f32_div_eq_some h3
  have e4 := b32_f32_eq_some h4
  have e5 := b32_f32_eq_some h5
  have e6 := b32_f32_eq_some h6
  have e7 := b32_f32_eq_some h7
  have e8 := b32_int32_eq_some h8
  rw [b32_lit_half] at e7
  subst e1 e2 e4
  subst e3
  subst e5
  subst e6
  subst e7
  refine ⟨n3, ?_⟩
  rw [e8]
  norm_num

/-- A bucket of zero stored width leaves the result undefined. -/
theorem b32_interpolate_zero_width {conc : ℚ} {b : aqi_breakpoint_t}
    (h : b.conc_hi = b.conc_lo) : Binary32.interpolate conc b = none := by
  by_contra hne
  obtain ⟨v, hv⟩ := Option.ne_none_iff_exists'.mp hne
  have := (b32_interpolate_value hv).1
  rw [h, sub_self, b32_round_zero] at this
  exact this rfl

theorem b32_calculate_aqi_cons_hit {conc : ℚ} {b : aqi_breakpoint_t}
    (bps : List aqi_breakpoint_t) (h : in_bucket conc b) :
    Binary32.calculate_aqi conc (b :: bps) = Binary32.interpolate conc b := by
  unfold in_bucket at h
  simp only [Binary32.calculate_aqi, if_pos h]

theorem b32_calculate_aqi_cons_miss {conc : ℚ} {b : aqi_breakpoint_t}
    (bps : List aqi_breakpoint_t) (h : ¬ in_bucket conc b) :
    Binary32.calculate_aqi conc (b :: bps) = Binary32.calculate_aqi conc bps := by
  unfold in_bucket at h
  simp only [Binary32.calculate_aqi, if_neg h]

theorem b32_calculate_aqi_no_match (conc : ℚ) (bps : List aqi_breakpoint_t)
    (h : ∀ b ∈ bps, ¬ in_bucket conc b) : Binary32.calculate_aqi conc bps = some (-1) := by
  induction bps with
  | nil => rfl
  | cons b bps ih =>
    rw [b32_calculate_aqi_cons_miss bps (h b (List.mem_cons_self b bps))]
    exact ih (fun x hx => h x (List.mem_cons_of_mem b hx))

theorem b32_calculate_aqi_first_match (conc : ℚ) (bps : List aqi_breakpoint_t)
    (h : ∃ b ∈ bps, in_bucket conc b) :
    ∃ pre b post, bps = pre ++ b :: post ∧ (∀ x ∈ pre, ¬ in_bucket conc x) ∧
      in_bucket conc b ∧ Binary32.calculate_aqi conc bps = Binary32.interpolate conc b := by
  induction bps with
  | nil => obtain ⟨b, hb, _⟩ := h; cases hb
  | cons a bps ih =>
    by_cases ha : in_bucket conc a
    · exact ⟨[], a, bps, rfl, by simp, ha, b32_calculate_aqi_cons_hit bps ha⟩
    · have h' : ∃ b ∈ bps, in_bucket conc b := by
        obtain ⟨b, hb, hin⟩ := h
        rcases List.mem_cons.mp hb with rfl | hb'
        · exact absurd hin ha
        · exact ⟨b, hb', hin⟩
      obtain ⟨pre, b, post, hsplit, hpre, hin, hval⟩ := ih h'
      refine ⟨a :: pre, b, post, by simp [hsplit], ?_, hin, ?_⟩
      · intro x hx
        rcases List.mem_cons.mp hx with rfl | hx'
        · exact ha
        · exact hpre x hx'
      · rw [b32_calculate_aqi_cons_miss bps ha]; exact hval

/-- On a bucket of the size found in the three tables the computation of lines 70-75 is
defined and its result is not negative. -/
theorem b32_interpolate_defined {conc : ℚ} {b : aqi_breakpoint_t}
    (h0 : 0 ≤ b.conc_lo) (hw : b.conc_lo + 1 ≤ b.conc_hi) (hhi : b.conc_hi ≤ 2049)
    (hl : 0 ≤ b.aqi_lo) (hlh : b.aqi_lo ≤ b.aqi_hi) (hh : b.aqi_hi ≤ 500)
    (hc : in_bucket conc b) :
    ∃ v, Binary32.interpolate conc b = some v ∧ 0 ≤ v := by
  obtain ⟨hc1, hc2⟩ := hc
  -- range
  have s1 : Binary32.int32 (b.aqi_hi - b.aqi_lo) = some (b.aqi_hi - b.aqi_lo) := by
    unfold Binary32.int32
    rw [if_pos]
    constructor <;> omega
  have r0 : (0 : ℚ) ≤ ((b.aqi_hi - b.aqi_lo : Int) : ℚ) := by
    exact_mod_cast sub_nonneg.mpr hlh
  have r1 : ((b.aqi_hi - b.aqi_lo : Int) : ℚ) ≤ 500 := by
    have : b.aqi_hi - b.aqi_lo ≤ 500 := by omega
    exact_mod_cast this
  have d0 := b32_round_nonneg r0
  have d1 := b32_round_le r0
  -- width
  have w0 : (1 : ℚ) ≤ b.conc_hi - b.conc_lo := by linarith
  have s2 := b32_f32_of_bounds (x := b.conc_hi - b.conc_lo) (by linarith)
    (by have : (2049 : ℚ) ≤ 2 ^ 100 := by norm_num
        linarith)
  have w1 := b32_round_ge w0
  have w2 : (1 / 2 : ℚ) ≤ Binary32.f32_round (b.conc_hi - b.conc_lo) := by linarith
  have wne : Binary32.f32_round (b.conc_hi - b.conc_lo) ≠ 0 := by linarith
  -- slope
  have q0 : 0 ≤ Binary32.f32_round ((b.aqi_hi - b.aqi_lo : Int) : ℚ) /
      Binary32.f32_round (b.conc_hi - b.conc_lo) := div_nonneg d0 (by linarith)
  have q1 : Binary32.f32_round ((b.aqi_hi - b.aqi_lo : Int) : ℚ) /
      Binary32.f32_round (b.conc_hi - b.conc_lo) ≤ 2002 := by
    rw [div_le_iff₀ (by linarith)]
    nlinarith
  have s3 : Binary32.f32_div (Binary32.f32_round ((b.aqi_hi - b.aqi_lo : Int) : ℚ))
      (Binary32.f32_round (b.conc_hi - b.conc_lo)) =
      some (Binary32.f32_round (Binary32.f32_round ((b.aqi_hi - b.aqi_lo : Int) : ℚ) /
        Binary32.f32_round (b.conc_hi - b.conc_lo))) := by
    unfold Binary32.f32_div
    rw [if_neg wne]
    exact b32_f32_of_bounds q0 (by
      have : (2002 : ℚ) ≤ 2 ^ 100 := by norm_num
      linarith)
  have k0 := b32_round_nonneg q0
  have k1 := b32_round_le q0
  -- offset
  have t0 : 0 ≤ conc - b.conc_lo := by linarith
  have t1 : conc - b.conc_lo ≤ 2049 := by linarith
  have s4 := b32_f32_of_bounds t0 (by
    have : (2049 : ℚ) ≤ 2 ^ 100 := by norm_num
    linarith)
  have o0 := b32_round_nonneg t0
  have o1 := b32_round_le t0
  -- scaled
  have p0 : 0 ≤ Binary32.f32_round (Binary32.f32_round ((b.aqi_hi - b.aqi_lo : Int) : ℚ) /
      Binary32.f32_round (b.conc_hi - b.conc_lo)) * Binary32.f32_round (conc - b.conc_lo) :=
    mul_nonneg k0 o0
  have p1 : Binary32.f32_round (Binary32.f32_round ((b.aqi_hi - b.aqi_lo : Int) : ℚ) /
      Binary32.f32_round (b.conc_hi - b.conc_lo)) * Binary32.f32_round (conc - b.conc_lo)
      ≤ 4005 * 4099 :=
    mul_le_mul (by linarith) (by linarith) o0 (by norm_num)
  have s5 := b32_f32_of_bounds p0 (by
    have : (4005 * 4099 : ℚ) ≤ 2 ^ 100 := by norm_num
    linarith)
  have c0 := b32_round_nonneg p0
  have c1 := b32_round_le p0
  -- aqi
  have l0 : (0 : ℚ) ≤ (b.aqi_lo : ℚ) := by exact_mod_cast hl
  have l1 : (b.aqi_lo : ℚ) ≤ 500 := by
    have : b.aqi_lo ≤ 500 := by omega
    exact_mod_cast this
  have m0 := b32_round_nonneg l0
  have m1 := b32_round_le l0
  have a0 : 0 ≤ Binary32.f32_round (Binary32.f32_round (Binary32.f32_round
      ((b.aqi_hi - b.aqi_lo : Int) : ℚ) / Binary32.f32_round (b.conc_hi - b.conc_lo)) *
      Binary32.f32_round (conc - b.conc_lo)) + Binary32.f32_round (b.aqi_lo : ℚ) := by
    linarith
  have s6 := b32_f32_of_bounds a0 (by
    have : (2 * (4005 * 4099) + 1 + 1001 : ℚ) ≤ 2 ^ 100 := by norm_num
    linarith)
  have g0 := b32_round_nonneg a0
  have g1 := b32_round_le a0
  -- rounded
  have u0 : 0 ≤ Binary32.f32_round (Binary32.f32_round (Binary32.f32_round
      (Binary32.f32_round ((b.aqi_hi - b.aqi_lo : Int) : ℚ) /
        Binary32.f32_round (b.conc_hi - b.conc_lo)) *
      Binary32.f32_round (conc - b.conc_lo)) + Binary32.f32_round (b.aqi_lo : ℚ)) +
      Binary32.lit 0.5 := by
    rw [b32_lit_half]
    linarith
  have s7 := b32_f32_of_bounds u0 (by
    rw [b32_lit_half]
    have : (2 * (2 * (4005 * 4099) + 1 + 1001) + 1 + 1 / 2 : ℚ) ≤ 2 ^ 100 := by norm_num
    linarith)
  have v0 := b32_round_nonneg u0
  have v1 := b32_round_le u0
  rw [b32_lit_half] at v1
  -- cast
  have f0 : (0 : Int) ≤ ⌊Binary32.f32_round (Binary32.f32_round (Binary32.f32_round
      (Binary32.f32_round (Binary32.f32_round ((b.aqi_hi - b.aqi_lo : Int) : ℚ) /
        Binary32.f32_round (b.conc_hi - b.conc_lo)) *
      Binary32.f32_round (conc - b.conc_lo)) + Binary32.f32_round (b.aqi_lo : ℚ)) +
      Binary32.lit 0.5)⌋ := Int.floor_nonneg.mpr v0
  have f1 : ⌊Binary32.f32_round (Binary32.f32_round (Binary32.f32_round
      (Binary32.f32_round (Binary32.f32_round ((b.aqi_hi - b.aqi_lo : Int) : ℚ) /
        Binary32.f32_round (b.conc_hi - b.conc_lo)) *
      Binary32.f32_round (conc - b.conc_lo)) + Binary32.f32_round (b.aqi_lo : ℚ)) +
      Binary32.lit 0.5)⌋ < 2 ^ 31 := by
    apply Int.floor_lt.mpr
    rw [show (((2 : Int) ^ 31 : Int) : ℚ) = 2 ^ 31 by norm_num, b32_lit_half]
    have : (2 * (2 * (2 * (4005 * 4099) + 1 + 1001) + 1 + 1 / 2) + 1 : ℚ) < 2 ^ 31 := by
      norm_num
    linarith
  have s8 : Binary32.int32 (float_to_int (Binary32.f32_round (Binary32.f32_round
      (Binary32.f32_round (Binary32.f32_round (Binary32.f32_round
        ((b.aqi_hi - b.aqi_lo : Int) : ℚ) / Binary32.f32_round (b.conc_hi - b.conc_lo)) *
      Binary32.f32_round (conc - b.conc_lo)) + Binary32.f32_round (b.aqi_lo : ℚ)) +
      Binary32.lit 0.5))) = some ⌊Binary32.f32_round (Binary32.f32_round
      (Binary32.f32_round (Binary32.f32_round (Binary32.f32_round
        ((b.aqi_hi - b.aqi_lo : Int) : ℚ) / Binary32.f32_round (b.conc_hi - b.conc_lo)) *
      Binary32.f32_round (conc - b.conc_lo)) + Binary32.f32_round (b.aqi_lo : ℚ)) +
      Binary32.lit 0.5)⌋ := by
    rw [float_to_int_of_nonneg v0]
    unfold Binary32.int32
    rw [if_pos]
    constructor <;> omega
  refine ⟨_, ?_, f0⟩
  simp only [Binary32.interpolate, Option.bind_eq_bind, s1, Option.some_bind, s2, s3, s4, s5,
    s6, s7, s8]

/-! ## The stored tables -/

theorem b32_pm25_stored :
    Binary32.pm25_breakpoints =
      [⟨0, 12, 0, 50⟩,
       ⟨6343885 / 524288, 4639949 / 131072, 51, 100⟩,
       ⟨71 / 2, 7261389 / 131072, 101, 150⟩,
       ⟨111 / 2, 4928307 / 32768, 151, 200⟩,
       ⟨301 / 2, 8205107 / 32768, 201, 300⟩,
       ⟨501 / 2, 11481907 / 32768, 301, 400⟩,
       ⟨701 / 2, 16397107 / 32768, 401, 500⟩] := by
  decide!

/-- The constants of the PM10 table are integers and are stored exactly. -/
theorem b32_pm10_stored : Binary32.pm10_breakpoints = pm10_breakpoints := by
  decide!

/-- The constants of the NOx table are integers and are stored exactly. -/
theorem b32_nox_stored : Binary32.nox_breakpoints = nox_breakpoints := by
  decide!

theorem b32_pm25_table_ok : table_ok Binary32.pm25_breakpoints := by
  rw [b32_pm25_stored]
  constructor
  · intro b hb
    simp only [List.mem_cons, List.mem_singleton, List.not_mem_nil, or_false] at hb
    rcases hb with rfl | rfl | rfl | rfl | rfl | rfl | rfl <;>
      (unfold bucket_ok; norm_num)
  · simp only [List.pairwise_cons, List.mem_cons, List.mem_singleton,
      List.not_mem_nil, forall_eq_or_imp, forall_eq, bucket_below, List.Pairwise.nil]
    norm_num

theorem b32_all_tables_ok : ∀ t ∈ Binary32.all_tables, table_ok t := by
  intro t ht
  simp only [Binary32.all_tables, List.mem_cons, List.mem_singleton, List.not_mem_nil,
    or_false] at ht
  rcases ht with rfl | rfl | rfl
  · exact b32_pm25_table_ok
  · rw [b32_pm10_stored]; exact pm10_table_ok
  · rw [b32_nox_stored]; exact nox_table_ok

/-- Per-bucket facts read off the stored tables. -/
theorem b32_all_tables_bucket_range :
    ∀ t ∈ Binary32.all_tables, ∀ b ∈ t,
      0 ≤ b.conc_lo ∧ b.conc_lo + 1 ≤ b.conc_hi ∧ b.conc_hi ≤ 2049 ∧
      0 ≤ b.aqi_lo ∧ b.aqi_lo ≤ b.aqi_hi ∧ b.aqi_hi ≤ 500 ∧ b.conc_hi ≤ conc_max t := by
  intro t ht b hb
  simp only [Binary32.all_tables, List.mem_cons, List.mem_singleton, List.not_mem_nil,
    or_false] at ht
  rcases ht with rfl | rfl | rfl
  · rw [b32_pm25_stored] at hb ⊢
    simp only [List.mem_cons, List.mem_singleton, List.not_mem_nil, or_false] at hb
    rcases hb with rfl | rfl | rfl | rfl | rfl | rfl | rfl <;> norm_num [conc_max]
  · rw [b32_pm10_stored] at hb ⊢
    simp only [pm10_breakpoints, List.mem_cons, List.mem_singleton, List.not_mem_nil,
      or_false] at hb
    rcases hb with rfl | rfl | rfl | rfl | rfl | rfl | rfl <;>
      norm_num [conc_max, pm10_breakpoints]
  · rw [b32_nox_stored] at hb ⊢
    simp only [nox_breakpoints, List.mem_cons, List.mem_singleton, List.not_mem_nil,
      or_false] at hb
    rcases hb with rfl | rfl | rfl | rfl | rfl | rfl | rfl <;>
      norm_num [conc_max, nox_breakpoints]

theorem b32_conc_max_values :
    conc_max Binary32.pm25_breakpoints = 16397107 / 32768 ∧
    conc_max Binary32.pm10_breakpoints = 604 ∧
    conc_max Binary32.nox_breakpoints = 2049 := by
  rw [b32_pm25_stored, b32_pm10_stored, b32_nox_stored]
  refine ⟨?_, ?_, ?_⟩ <;> norm_num [conc_max, pm10_breakpoints, nox_breakpoints]

theorem b32_lit_values :
    Binary32.lit 500.4 = 16397107 / 32768 ∧ Binary32.lit 604.0 = 604 ∧
    Binary32.lit 2049.0 = 2049 ∧ Binary32.lit (-1.0) = -1 ∧
    Binary32.lit 35.4 = 4639949 / 131072 ∧ Binary32.lit 55.4 = 7261389 / 131072 ∧
    Binary32.lit 12.05 = 12635341 / 1048576 := by
  decide!

theorem b32_all_tables_head :
    ∀ t ∈ Binary32.all_tables, ∃ b0 rest, t = b0 :: rest ∧ b0.conc_lo = 0 := by
  intro t ht
  simp only [Binary32.all_tables, List.mem_cons, List.mem_singleton, List.not_mem_nil,
    or_false] at ht
  rcases ht with rfl | rfl | rfl
  · rw [b32_pm25_stored]; exact ⟨_, _, rfl, rfl⟩
  · rw [b32_pm10_stored]; exact ⟨_, _, rfl, by norm_num⟩
  · rw [b32_nox_stored]; exact ⟨_, _, rfl, by norm_num⟩

/-- On the stored tables a matched concentration gives a defined, non-negative result. -/
theorem b32_calculate_aqi_defined {t : List aqi_breakpoint_t} (ht : t ∈ Binary32.all_tables)
    {c : ℚ} (h : ∃ b ∈ t, in_bucket c b) :
    ∃ v, Binary32.calculate_aqi c t = some v ∧ 0 ≤ v := by
  obtain ⟨pre, b, post, hsplit, _, hin, hval⟩ := b32_calculate_aqi_first_match c t h
  have hb : b ∈ t := by simp [hsplit]
  obtain ⟨h0, hw, hhi, hl, hlh, hh, _⟩ := b32_all_tables_bucket_range t ht b hb
  rw [hval]
  exact b32_interpolate_defined h0 hw hhi hl hlh hh hin

/-! ## Claims settled on the binary32 layer -/

/-- C1 fails: `calculate_aqi` does not return the exactly computed value.  At the binary32
concentration 438878/1024 (about 428.59) the first matching bucket of the NOx table is
`{361, 649, 151, 200}`; the formula in exact arithmetic gives 162.99999 and truncates to 162,
the binary32 computation of lines 74-75 rounds `aqi` to 162.5 and `aqi + 0.5f` to 163.  And
on a bucket of zero width, `{5, 5, 10, 20}` at 5, the quotient is not finite and the cast has
no defined result. -/
theorem calculate_aqi_binary32_not_exact :
    Binary32.f32_round (438878 / 1024) = 438878 / 1024 ∧
    (∀ x ∈ Binary32.nox_breakpoints.take 3,
      ¬ (x.conc_lo ≤ (438878 / 1024 : ℚ) ∧ (438878 / 1024 : ℚ) ≤ x.conc_hi)) ∧
    (Binary32.nox_breakpoints.drop 3).head? = some ⟨361, 649, 151, 200⟩ ∧
    ((361 : ℚ) ≤ 438878 / 1024 ∧ (438878 / 1024 : ℚ) ≤ 649) ∧
    Binary32.calculate_aqi (438878 / 1024) Binary32.nox_breakpoints = some 163 ∧
    float_to_int
      ((((200 - 151 : Int) : ℚ) / (649 - 361)) * (438878 / 1024 - 361)
        + ((151 : Int) : ℚ) + 0.5) = 162 ∧
    Binary32.calculate_aqi 5 [⟨5, 5, 10, 20⟩] = none := by
  decide!

/-- C1 as amended. For every breakpoint table and every concentration `c` lying in at least
one bucket, `calculate_aqi` returns from the first such bucket in table order, and the value
is `((aqi_hi - aqi_lo) / (conc_hi - conc_lo)) * (c - conc_lo) + aqi_lo`, plus 0.5, truncated
to an integer, with every operation rounded to binary32 rather than exact.  The result is
undefined when that bucket has zero width; on the three tables of the program it is always
defined. -/
theorem calculate_aqi_first_bucket_binary32 (bps : List aqi_breakpoint_t) (c : ℚ)
    (h : ∃ b ∈ bps, b.conc_lo ≤ c ∧ c ≤ b.conc_hi) :
    ∃ pre b post, bps = pre ++ b :: post ∧
      (∀ x ∈ pre, ¬ (x.conc_lo ≤ c ∧ c ≤ x.conc_hi)) ∧
      (b.conc_lo ≤ c ∧ c ≤ b.conc_hi) ∧
      Binary32.calculate_aqi c bps = Binary32.interpolate c b ∧
      (∀ v, Binary32.calculate_aqi c bps = some v →
        Binary32.f32_round (b.conc_hi - b.conc_lo) ≠ 0 ∧
        v = float_to_int
          (Binary32.f32_round
            (Binary32.f32_round
              (Binary32.f32_round
                (Binary32.f32_round
                  (Binary32.f32_round ((b.aqi_hi - b.aqi_lo : Int) : ℚ) /
                    Binary32.f32_round (b.conc_hi - b.conc_lo))
                  * Binary32.f32_round (c - b.conc_lo))
                + Binary32.f32_round (b.aqi_lo : ℚ))
              + 0.5))) ∧
      (b.conc_hi = b.conc_lo → Binary32.calculate_aqi c bps = none) ∧
      (bps ∈ Binary32.all_tables → ∃ v, Binary32.calculate_aqi c bps = some v ∧ 0 ≤ v) := by
  obtain ⟨pre, b, post, hsplit, hpre, hin, hval⟩ := b32_calculate_aqi_first_match c bps h
  refine ⟨pre, b, post, hsplit, hpre, hin, hval, ?_, ?_, ?_⟩
  · intro v hv
    rw [hval] at hv
    exact b32_interpolate_value hv
  · intro hz
    rw [hval]
    exact b32_interpolate_zero_width hz
  · intro ht
    exact b32_calculate_aqi_defined ht h

/-- C1 as amended, at the concentration 438878/1024 on the stored NOx table: the result is
defined and is 163. -/
theorem calculate_aqi_first_bucket_binary32_witness :
    (∃ pre b post, Binary32.nox_breakpoints = pre ++ b :: post ∧
      (∀ x ∈ pre, ¬ (x.conc_lo ≤ (438878 / 1024 : ℚ) ∧ (438878 / 1024 : ℚ) ≤ x.conc_hi)) ∧
      (b.conc_lo ≤ (438878 / 1024 : ℚ) ∧ (438878 / 1024 : ℚ) ≤ b.conc_hi) ∧
      Binary32.calculate_aqi (438878 / 1024) Binary32.nox_breakpoints =
        Binary32.interpolate (438878 / 1024) b ∧
      (∀ v, Binary32.calculate_aqi (438878 / 1024) Binary32.nox_breakpoints = some v →
        Binary32.f32_round (b.conc_hi - b.conc_lo) ≠ 0 ∧
        v = float_to_int
          (Binary32.f32_round
            (Binary32.f32_round
              (Binary32.f32_round
                (Binary32.f32_round
                  (Binary32.f32_round ((b.aqi_hi - b.aqi_lo : Int) : ℚ) /
                    Binary32.f32_round (b.conc_hi - b.conc_lo))
                  * Binary32.f32_round (438878 / 1024 - b.conc_lo))
                + Binary32.f32_round (b.aqi_lo : ℚ))
              + 0.5))) ∧
      (b.conc_hi = b.conc_lo →
        Binary32.calculate_aqi (438878 / 1024) Binary32.nox_breakpoints = none) ∧
      (Binary32.nox_breakpoints ∈ Binary32.all_tables →
        ∃ v, Binary32.calculate_aqi (438878 / 1024) Binary32.nox_breakpoints = some v ∧
          0 ≤ v)) ∧
    Binary32.calculate_aqi (438878 / 1024) Binary32.nox_breakpoints = some 163 :=
  ⟨calculate_aqi_first_bucket_binary32 Binary32.nox_breakpoints (438878 / 1024)
    ⟨⟨361, 649, 151, 200⟩, by rw [b32_nox_stored]; norm_num [nox_breakpoints], by norm_num⟩,
   by decide!⟩

/-- C4. For each of the three tables, as stored, `calculate_aqi` returns the failure marker
`-1` at every concentration contained in no bucket: at every negative concentration (in
particular `-1.0f`), at every concentration above the last bucket's `conc_hi` (the stored
`500.4f`, `604.0f`, `2049.0f`, hence also above 500.4, 604.0, 2049.0), and at every
concentration strictly between one bucket's stored `conc_hi` and the next bucket's stored
`conc_lo`.  The stored bounds themselves are inside their buckets: `35.4f` gives 100 and
`55.4f` gives 150. -/
theorem calculate_aqi_out_of_range_binary32 :
    (∀ t ∈ Binary32.all_tables, ∀ c : ℚ,
      (∀ b ∈ t, ¬ (b.conc_lo ≤ c ∧ c ≤ b.conc_hi)) →
      Binary32.calculate_aqi c t = some (-1)) ∧
    (∀ t ∈ Binary32.all_tables, ∀ c : ℚ, c < 0 → Binary32.calculate_aqi c t = some (-1)) ∧
    (∀ t ∈ Binary32.all_tables, Binary32.calculate_aqi (Binary32.lit (-1.0)) t = some (-1)) ∧
    (∀ c : ℚ, Binary32.lit 500.4 < c →
      Binary32.calculate_aqi c Binary32.pm25_breakpoints = some (-1)) ∧
    (∀ c : ℚ, Binary32.lit 604.0 < c →
      Binary32.calculate_aqi c Binary32.pm10_breakpoints = some (-1)) ∧
    (∀ c : ℚ, Binary32.lit 2049.0 < c →
      Binary32.calculate_aqi c Binary32.nox_breakpoints = some (-1)) ∧
    (∀ c : ℚ, 500.4 < c → Binary32.calculate_aqi c Binary32.pm25_breakpoints = some (-1)) ∧
    (∀ c : ℚ, 604.0 < c → Binary32.calculate_aqi c Binary32.pm10_breakpoints = some (-1)) ∧
    (∀ c : ℚ, 2049.0 < c → Binary32.calculate_aqi c Binary32.nox_breakpoints = some (-1)) ∧
    (∀ t ∈ Binary32.all_tables, ∀ (pre post : List aqi_breakpoint_t)
      (b1 b2 : aqi_breakpoint_t) (c : ℚ), t = pre ++ b1 :: b2 :: post →
      b1.conc_hi < c → c < b2.conc_lo → Binary32.calculate_aqi c t = some (-1)) ∧
    Binary32.calculate_aqi (Binary32.lit 35.4) Binary32.pm25_breakpoints = some 100 ∧
    Binary32.calculate_aqi (Binary32.lit 55.4) Binary32.pm25_breakpoints = some 150 := by
  have hneg : ∀ t ∈ Binary32.all_tables, ∀ c : ℚ, c < 0 →
      Binary32.calculate_aqi c t = some (-1) := by
    intro t ht c hc
    apply b32_calculate_aqi_no_match
    intro b hb hin
    have := (b32_all_tables_bucket_range t ht b hb).1
    unfold in_bucket at hin
    linarith [hin.1]
  have habove : ∀ t ∈ Binary32.all_tables, ∀ c : ℚ, conc_max t < c →
      Binary32.calculate_aqi c t = some (-1) := by
    intro t ht c hc
    apply b32_calculate_aqi_no_match
    intro b hb hin
    have := (b32_all_tables_bucket_range t ht b hb).2.2.2.2.2.2
    unfold in_bucket at hin
    linarith [hin.2]
  obtain ⟨l1, l2, l3, l4, _, _, _⟩ := b32_lit_values
  obtain ⟨m1, m2, m3⟩ := b32_conc_max_values
  have a25 : ∀ c : ℚ, Binary32.lit 500.4 < c →
      Binary32.calculate_aqi c Binary32.pm25_breakpoints = some (-1) := by
    intro c hc
    exact habove _ (by simp [Binary32.all_tables]) c (by rw [m1, ← l1]; exact hc)
  have a10 : ∀ c : ℚ, Binary32.lit 604.0 < c →
      Binary32.calculate_aqi c Binary32.pm10_breakpoints = some (-1) := by
    intro c hc
    exact habove _ (by simp [Binary32.all_tables]) c (by rw [m2, ← l2]; exact hc)
  have anox : ∀ c : ℚ, Binary32.lit 2049.0 < c →
      Binary32.calculate_aqi c Binary32.nox_breakpoints = some (-1) := by
    intro c hc
    exact habove _ (by simp [Binary32.all_tables]) c (by rw [m3, ← l3]; exact hc)
  refine ⟨?_, hneg, ?_, a25, a10, anox, ?_, ?_, ?_, ?_, by decide!, by decide!⟩
  · intro t _ c h
    exact b32_calculate_aqi_no_match c t h
  · intro t ht
    exact hneg t ht _ (by rw [l4]; norm_num)
  · intro c hc
    exact a25 c (by rw [l1]; norm_num at hc ⊢; linarith)
  · intro c hc
    exact a10 c (by rw [l2]; norm_num at hc ⊢; linarith)
  · intro c hc
    exact anox c (by rw [l3]; norm_num at hc ⊢; linarith)
  · intro t ht pre post b1 b2 c hsplit hlo hhi
    exact b32_calculate_aqi_no_match c t
      (table_ok_gap_no_match (b32_all_tables_ok t ht) hsplit hlo hhi)

/-- C4 at NOx concentration 53.5, strictly between the first bucket's 53.0 and the second
bucket's 54.0, and at 501.0 above the PM2.5 table. -/
theorem calculate_aqi_out_of_range_binary32_witness :
    Binary32.calculate_aqi 53.5 Binary32.nox_breakpoints = some (-1) ∧
    Binary32.calculate_aqi 501.0 Binary32.pm25_breakpoints = some (-1) :=
  ⟨calculate_aqi_out_of_range_binary32.2.2.2.2.2.2.2.2.2.1 Binary32.nox_breakpoints
      (by simp [Binary32.all_tables]) []
      [⟨101.0, 360.0, 101, 150⟩, ⟨361.0, 649.0, 151, 200⟩, ⟨650.0, 1249.0, 201, 300⟩,
        ⟨1250.0, 1649.0, 301, 400⟩, ⟨1650.0, 2049.0, 401, 500⟩]
      ⟨0.0, 53.0, 0, 50⟩ ⟨54.0, 100.0, 51, 100⟩ 53.5
      (by rw [b32_nox_stored]; simp [nox_breakpoints]) (by norm_num) (by norm_num),
   calculate_aqi_out_of_range_binary32.2.2.2.2.2.2.1 501.0 (by norm_num)⟩

/-- C8 fails: inside each stored table's span `[0, conc_max]` there are binary32
concentrations that lie in no bucket, where `calculate_aqi` returns `-1`: `12.05f` for PM2.5,
54.5 for PM10, 53.5 for NOx. -/
theorem stored_tables_do_not_cover_span :
    ((0 : ℚ) ≤ Binary32.lit 12.05 ∧
      Binary32.lit 12.05 ≤ conc_max Binary32.pm25_breakpoints ∧
      (∀ b ∈ Binary32.pm25_breakpoints,
        ¬ (b.conc_lo ≤ Binary32.lit 12.05 ∧ Binary32.lit 12.05 ≤ b.conc_hi)) ∧
      Binary32.calculate_aqi (Binary32.lit 12.05) Binary32.pm25_breakpoints = some (-1)) ∧
    ((0 : ℚ) ≤ Binary32.lit 54.5 ∧ Binary32.lit 54.5 = 54.5 ∧
      Binary32.lit 54.5 ≤ conc_max Binary32.pm10_breakpoints ∧
      (∀ b ∈ Binary32.pm10_breakpoints,
        ¬ (b.conc_lo ≤ Binary32.lit 54.5 ∧ Binary32.lit 54.5 ≤ b.conc_hi)) ∧
      Binary32.calculate_aqi (Binary32.lit 54.5) Binary32.pm10_breakpoints = some (-1)) ∧
    ((0 : ℚ) ≤ Binary32.lit 53.5 ∧ Binary32.lit 53.5 = 53.5 ∧
      Binary32.lit 53.5 ≤ conc_max Binary32.nox_breakpoints ∧
      (∀ b ∈ Binary32.nox_breakpoints,
        ¬ (b.conc_lo ≤ Binary32.lit 53.5 ∧ Binary32.lit 53.5 ≤ b.conc_hi)) ∧
      Binary32.calculate_aqi (Binary32.lit 53.5) Binary32.nox_breakpoints = some (-1)) := by
  decide!

/-- C8 as amended. For each of the three tables, as stored, every concentration `c` with
`0 ≤ c ≤ conc_max` either lies in some bucket, and then `calculate_aqi` succeeds with a
defined result that is not negative, or lies strictly between the stored `conc_hi` of one
bucket and the stored `conc_lo` of the next, and then `calculate_aqi` returns `-1`. -/
theorem stored_tables_cover_span_up_to_gaps (t : List aqi_breakpoint_t)
    (ht : t ∈ Binary32.all_tables) (c : ℚ) (h0 : 0 ≤ c) (hmax : c ≤ conc_max t) :
    ((∃ b ∈ t, b.conc_lo ≤ c ∧ c ≤ b.conc_hi) ∧
      ∃ v, Binary32.calculate_aqi c t = some v ∧ 0 ≤ v ∧ v ≠ -1) ∨
    ((∃ pre b1 b2 post, t = pre ++ b1 :: b2 :: post ∧ b1.conc_hi < c ∧ c < b2.conc_lo) ∧
      Binary32.calculate_aqi c t = some (-1)) := by
  obtain ⟨b0, rest, hsplit, hb0⟩ := b32_all_tables_head t ht
  have hok := b32_all_tables_ok t ht
  rw [hsplit] at hmax
  rcases span_bucket_or_gap rest b0 c (by rw [hb0]; exact h0) hmax with
    ⟨b, hb, hin⟩ | ⟨pre, b1, b2, post, hs, hx, hy⟩
  · left
    rw [← hsplit] at hb
    obtain ⟨v, hv, hv0⟩ := b32_calculate_aqi_defined ht ⟨b, hb, hin⟩
    exact ⟨⟨b, hb, hin⟩, v, hv, hv0, by omega⟩
  · right
    rw [← hsplit] at hs
    exact ⟨⟨pre, b1, b2, post, hs, hx, hy⟩,
      b32_calculate_aqi_no_match c _ (table_ok_gap_no_match hok hs hx hy)⟩

/-- C8 as amended, on the stored PM2.5 table at `35.4f` (the stored upper bound of the
second bucket, result 100) and at `12.05f` (between the first two buckets, result -1). -/
theorem stored_tables_cover_span_up_to_gaps_witness :
    (((∃ b ∈ Binary32.pm25_breakpoints,
          b.conc_lo ≤ Binary32.lit 35.4 ∧ Binary32.lit 35.4 ≤ b.conc_hi) ∧
        ∃ v, Binary32.calculate_aqi (Binary32.lit 35.4) Binary32.pm25_breakpoints = some v ∧
          0 ≤ v ∧ v ≠ -1) ∨
      ((∃ pre b1 b2 post, Binary32.pm25_breakpoints = pre ++ b1 :: b2 :: post ∧
          b1.conc_hi < Binary32.lit 35.4 ∧ Binary32.lit 35.4 < b2.conc_lo) ∧
        Binary32.calculate_aqi (Binary32.lit 35.4) Binary32.pm25_breakpoints = some (-1))) ∧
    (((∃ b ∈ Binary32.pm25_breakpoints,
          b.conc_lo ≤ Binary32.lit 12.05 ∧ Binary32.lit 12.05 ≤ b.conc_hi) ∧
        ∃ v, Binary32.calculate_aqi (Binary32.lit 12.05) Binary32.pm25_breakpoints = some v ∧
          0 ≤ v ∧ v ≠ -1) ∨
      ((∃ pre b1 b2 post, Binary32.pm25_breakpoints = pre ++ b1 :: b2 :: post ∧
          b1.conc_hi < Binary32.lit 12.05 ∧ Binary32.lit 12.05 < b2.conc_lo) ∧
        Binary32.calculate_aqi (Binary32.lit 12.05) Binary32.pm25_breakpoints = some (-1))) ∧
    Binary32.calculate_aqi (Binary32.lit 35.4) Binary32.pm25_breakpoints = some 100 ∧
    Binary32.calculate_aqi (Binary32.lit 12.05) Binary32.pm25_breakpoints = some (-1) :=
  ⟨stored_tables_cover_span_up_to_gaps Binary32.pm25_breakpoints
      (by simp [Binary32.all_tables]) (Binary32.lit 35.4) (by decide!) (by decide!),
   stored_tables_cover_span_up_to_gaps Binary32.pm25_breakpoints
      (by simp [Binary32.all_tables]) (Binary32.lit 12.05) (by decide!) (by decide!),
   by decide!, by decide!⟩

/-! ## The unit conversion in binary32 -/

theorem b32_round_abs_err_num (x : ℚ) :
    |Binary32.f32_round x - x| ≤ |x| / 16777216 + 1 / 1000000 := by
  have h := b32_round_abs_err x
  have e1 : |x| * (2 : ℚ) ^ (-24 : Int) = |x| / 16777216 := by
    rw [zpow_neg]
    norm_num
    ring
  have e2 : (2 : ℚ) ^ (-150 : Int) ≤ 1 / 1000000 := by
    rw [zpow_neg, show (1 / 1000000 : ℚ) = (1000000 : ℚ)⁻¹ by norm_num]
    apply inv_anti₀ (by norm_num)
    calc (1000000 : ℚ) ≤ (2 : ℚ) ^ (20 : Int) := by norm_num
      _ ≤ (2 : ℚ) ^ (150 : Int) := zpow_le_zpow_right₀ (by norm_num) (by norm_num)
  rw [e1] at h
  linarith

theorem b32_round_near_int {y : ℚ} {n : Int} (h : |y - n| < 1 / 2) : round y = n := by
  rw [round_eq, Int.floor_eq_iff]
  rw [abs_lt] at h
  constructor <;> linarith [h.1, h.2]

/-- A 16-bit count divided in binary32 by a divisor between 1 and 200 stays within 1/50 of
the count when multiplied back, exactly or in binary32. -/
theorem b32_conversion_near (n : Int) (hn : |(n : ℚ)| ≤ 65535) (d : ℚ) (hd1 : 1 ≤ d)
    (hd2 : d ≤ 200) :
    |Binary32.f32_round (Binary32.f32_round (n : ℚ) / d) * d - n| ≤ 1 / 100 ∧
    |Binary32.f32_round (Binary32.f32_round (Binary32.f32_round (n : ℚ) / d) * d) - n|
      ≤ 1 / 50 := by
  have hd : 0 < d := by linarith
  have a0 := b32_round_abs_err_num (n : ℚ)
  have a1 := b32_round_abs_err_num (Binary32.f32_round (n : ℚ) / d)
  have a2 := b32_round_abs_err_num (Binary32.f32_round (Binary32.f32_round (n : ℚ) / d) * d)
  -- the converted count
  have x0 : |Binary32.f32_round (n : ℚ)| ≤ 65536 := by
    have := abs_sub_abs_le_abs_sub (Binary32.f32_round (n : ℚ)) (n : ℚ)
    linarith
  -- the quotient, multiplied back exactly
  have e1 : Binary32.f32_round (Binary32.f32_round (n : ℚ) / d) * d - Binary32.f32_round (n : ℚ)
      = (Binary32.f32_round (Binary32.f32_round (n : ℚ) / d) - Binary32.f32_round (n : ℚ) / d)
        * d := by
    field_simp
  have e2 : |Binary32.f32_round (n : ℚ) / d| * d = |Binary32.f32_round (n : ℚ)| := by
    rw [abs_div, abs_of_pos hd]
    field_simp
  have b1 : |Binary32.f32_round (Binary32.f32_round (n : ℚ) / d) * d
      - Binary32.f32_round (n : ℚ)| ≤ |Binary32.f32_round (n : ℚ)| / 16777216 + d / 1000000 := by
    rw [e1, abs_mul, abs_of_pos hd]
    calc _ ≤ (|Binary32.f32_round (n : ℚ) / d| / 16777216 + 1 / 1000000) * d :=
          mul_le_mul_of_nonneg_right a1 hd.le
      _ = |Binary32.f32_round (n : ℚ) / d| * d / 16777216 + d / 1000000 := by ring
      _ = _ := by rw [e2]
  have c1 : |Binary32.f32_round (Binary32.f32_round (n : ℚ) / d) * d - n| ≤ 1 / 100 := by
    have := abs_sub_le (Binary32.f32_round (Binary32.f32_round (n : ℚ) / d) * d)
      (Binary32.f32_round (n : ℚ)) (n : ℚ)
    linarith
  refine ⟨c1, ?_⟩
  have y0 : |Binary32.f32_round (Binary32.f32_round (n : ℚ) / d) * d| ≤ 65536 := by
    have := abs_sub_abs_le_abs_sub
      (Binary32.f32_round (Binary32.f32_round (n : ℚ) / d) * d) (n : ℚ)
    linarith
  have := abs_sub_le
    (Binary32.f32_round (Binary32.f32_round (Binary32.f32_round (n : ℚ) / d) * d))
    (Binary32.f32_round (Binary32.f32_round (n : ℚ) / d) * d) (n : ℚ)
  linarith

theorem b32_divisors :
    Binary32.lit 10.0 = 10 ∧ Binary32.lit 100.0 = 100 ∧ Binary32.lit 200.0 = 200 := by
  decide!

theorem b32_round_trip (n : Int) (hn : -65535 ≤ n ∧ n ≤ 65535) (d : ℚ) (hd1 : 1 ≤ d)
    (hd2 : d ≤ 200) :
    raw_of_physical d (Binary32.f32_round (Binary32.f32_round (n : ℚ) / d)) = n ∧
    Binary32.raw_of_physical d (Binary32.f32_round (Binary32.f32_round (n : ℚ) / d)) = n := by
  have hq : |(n : ℚ)| ≤ 65535 := by
    rw [abs_le]
    constructor
    · exact_mod_cast hn.1
    · exact_mod_cast hn.2
  obtain ⟨h1, h2⟩ := b32_conversion_near n hq d hd1 hd2
  constructor
  · unfold raw_of_physical
    exact b32_round_near_int (by linarith)
  · unfold Binary32.raw_of_physical
    exact b32_round_near_int (by linarith)

/-- C15. Unit conversion round-trips on the stored values: for every representable raw
count (unsigned 16-bit particulate counts, signed 16-bit humidity, temperature, VOC and NOx
counts), the binary32 quotient that lines 152-159 store (divisor 10 for particulate, VOC and
NOx, 100 for humidity, 200 for temperature), multiplied by the same divisor and rounded to
the nearest integer, is the original raw count, whether the multiplication is exact or
itself carried out in binary32. -/
theorem conversion_round_trip_binary32 (v : raw_values) (hv : raw_values_in_range v) :
    (raw_of_physical 10 (Binary32.convert_units v).pm1 = v.pm1p0 ∧
      raw_of_physical 10 (Binary32.convert_units v).pm2_5 = v.pm2p5 ∧
      raw_of_physical 10 (Binary32.convert_units v).pm4 = v.pm4p0 ∧
      raw_of_physical 10 (Binary32.convert_units v).pm10 = v.pm10p0 ∧
      raw_of_physical 200 (Binary32.convert_units v).temp = v.temp_raw ∧
      raw_of_physical 100 (Binary32.convert_units v).rh = v.hum ∧
      raw_of_physical 10 (Binary32.convert_units v).voc = v.voc_idx ∧
      raw_of_physical 10 (Binary32.convert_units v).nox = v.nox_idx) ∧
    (Binary32.raw_of_physical 10 (Binary32.convert_units v).pm1 = v.pm1p0 ∧
      Binary32.raw_of_physical 10 (Binary32.convert_units v).pm2_5 = v.pm2p5 ∧
      Binary32.raw_of_physical 10 (Binary32.convert_units v).pm4 = v.pm4p0 ∧
      Binary32.raw_of_physical 10 (Binary32.convert_units v).pm10 = v.pm10p0 ∧
      Binary32.raw_of_physical 200 (Binary32.convert_units v).temp = v.temp_raw ∧
      Binary32.raw_of_physical 100 (Binary32.convert_units v).rh = v.hum ∧
      Binary32.raw_of_physical 10 (Binary32.convert_units v).voc = v.voc_idx ∧
      Binary32.raw_of_physical 10 (Binary32.convert_units v).nox = v.nox_idx) := by
  obtain ⟨h1, h2, h3, h4, h5, h6, h7, h8⟩ := hv
  obtain ⟨d10, d100, d200⟩ := b32_divisors
  have p1 := b32_round_trip (v.pm1p0 : Int) (by omega) 10 (by norm_num) (by norm_num)
  have p2 := b32_round_trip (v.pm2p5 : Int) (by omega) 10 (by norm_num) (by norm_num)
  have p3 := b32_round_trip (v.pm4p0 : Int) (by omega) 10 (by norm_num) (by norm_num)
  have p4 := b32_round_trip (v.pm10p0 : Int) (by omega) 10 (by norm_num) (by norm_num)
  have p5 := b32_round_trip v.temp_raw (by omega) 200 (by norm_num) (by norm_num)
  have p6 := b32_round_trip v.hum (by omega) 100 (by norm_num) (by norm_num)
  have p7 := b32_round_trip v.voc_idx (by omega) 10 (by norm_num) (by norm_num)
  have p8 := b32_round_trip v.nox_idx (by omega) 10 (by norm_num) (by norm_num)
  simp only [Int.cast_natCast] at p1 p2 p3 p4
  simp only [Binary32.convert_units, d10, d100, d200]
  exact ⟨⟨p1.1, p2.1, p3.1, p4.1, p5.1, p6.1, p7.1, p8.1⟩,
    ⟨p1.2, p2.2, p3.2, p4.2, p5.2, p6.2, p7.2, p8.2⟩⟩

/-- C15 at the largest and smallest 16-bit counts; the stored quotient of 354 by 10 is
`35.4f`, not 35.4. -/
theorem conversion_round_trip_binary32_witness :
    raw_of_physical 10
      (Binary32.convert_units ⟨65535, 354, 1, 0, -32768, 32767, -1, 535⟩).pm1 = 65535 ∧
    raw_of_physical 10
      (Binary32.convert_units ⟨65535, 354, 1, 0, -32768, 32767, -1, 535⟩).pm2_5 = 354 ∧
    Binary32.raw_of_physical 100
      (Binary32.convert_units ⟨65535, 354, 1, 0, -32768, 32767, -1, 535⟩).rh = -32768 ∧
    Binary32.raw_of_physical 200
      (Binary32.convert_units ⟨65535, 354, 1, 0, -32768, 32767, -1, 535⟩).temp = 32767 ∧
    (Binary32.convert_units ⟨65535, 354, 1, 0, -32768, 32767, -1, 535⟩).pm2_5
      = 4639949 / 131072 :=
  ⟨(conversion_round_trip_binary32 ⟨65535, 354, 1, 0, -32768, 32767, -1, 535⟩
      (by unfold raw_values_in_range; decide)).1.1,
   (conversion_round_trip_binary32 ⟨65535, 354, 1, 0, -32768, 32767, -1, 535⟩
      (by unfold raw_values_in_range; decide)).1.2.1,
   (conversion_round_trip_binary32 ⟨65535, 354, 1, 0, -32768, 32767, -1, 535⟩
      (by unfold raw_values_in_range; decide)).2.2.2.2.2.2.1,
   (conversion_round_trip_binary32 ⟨65535, 354, 1, 0, -32768, 32767, -1, 535⟩
      (by unfold raw_values_in_range; decide)).2.2.2.2.2.1,
   by decide!⟩

end AqiSen55
